import Mathlib

/-!
# dune-functions: Taylor-Hood index assembly and container descriptors

A shallow embedding of

* `dune/functions/functionspacebases/taylorhoodbasis.hh`
  (`TaylorHoodLocalIndexSet`, `TaylorHoodIndexSet`, `TaylorHoodBasis`,
  `TaylorHoodBasisLocalView`, `TaylorHoodVelocityTree`, `TaylorHoodBasisTree`),
* `dune/functions/functionspacebases/containerdescriptors.hh`
  (`Value`, `Tuple`, `Array`, `UniformArray`, `UniformVector`, `makeDescriptor`,
  `makeUniformDescriptor`),
* `dune/functions/gridfunctions/gridviewentityset.hh` (`GridViewEntitySet`).

Conventions.

* `std::size_t` values are degree-of-freedom counts and indices; they are natural
  numbers here.  The products and sums of the source compute container sizes
  and positions within containers, so no reduction modulo `2^64` is modelled.  The only subtraction of the source, `localIndex - v_size`,
  is executed under the guard `localIndex / v_size == 1`, where it does not wrap.
* Member functions whose C++ behaviour is undefined on some input (division by
  zero, access to a child that does not exist, falling off the end of a
  function) return `Option`, with `none` on exactly those inputs.
* An array entry that the source never assigns is `none`.
* The scalar sub-bases `PQkNodalBasis<GV,1>` and `PQkNodalBasis<GV,2>` are defined
  in a header that is not part of the sources; every member of theirs that the
  Taylor-Hood classes call is a field of the structure `PQkNodalBasis` below.
  What the specification says about them beyond their signatures, the local sizes
  of the two Lagrange bases and the attaching `bind` of their local index sets, is
  collected in `LagrangeGV` and `AttachingGV`.
-/

set_option autoImplicit false

namespace Dune.Functions

/-! ## The scalar sub-bases (collaborators) -/

/-- Multi-index of a scalar sub-basis, `std::array<size_type,1>`; the source only
ever reads its entry `[0]`. -/
structure PQkMultiIndex where
  /-- Entry `[0]`. -/
  e0 : Nat
deriving DecidableEq, Repr

/-- The members of `PQkNodalBasis<GV,k>`, of its index set, local index set, local
view and leaf node that `taylorhoodbasis.hh` calls.  The carrier types are the
states of the respective C++ objects. -/
structure PQkNodalBasis (GridView Element : Type) where
  /-- The class `PQkNodalBasis<GV,k>`. -/
  Basis : Type
  /-- The class `PQkNodalBasis<GV,k>::IndexSet`. -/
  IndexSet : Type
  /-- The class `PQkNodalBasis<GV,k>::IndexSet::LocalIndexSet`. -/
  LocalIndexSet : Type
  /-- The class `PQkNodalBasisLocalView<GV,k>`. -/
  LocalView : Type
  /-- State of a `PQkNodalBasisLeafNode<GV,k,F>` apart from its functor. -/
  Node : Type
  /-- Constructor `PQkNodalBasis(gv)`. -/
  construct : GridView → Basis
  /-- Member `gridView()`. -/
  gridView : Basis → GridView
  /-- Member `indexSet()`. -/
  indexSet : Basis → IndexSet
  /-- Member `localView()`. -/
  localView : Basis → LocalView
  /-- Member `IndexSet::size()`. -/
  indexSetSize : IndexSet → Nat
  /-- Member `IndexSet::localIndexSet()`. -/
  localIndexSet : IndexSet → LocalIndexSet
  /-- Member `LocalIndexSet::bind(localView)`. -/
  lisBind : LocalIndexSet → LocalView → LocalIndexSet
  /-- Member `LocalIndexSet::unbind()`. -/
  lisUnbind : LocalIndexSet → LocalIndexSet
  /-- Member `LocalIndexSet::size()`. -/
  lisSize : LocalIndexSet → Nat
  /-- Member `LocalIndexSet::index(i)`. -/
  lisIndex : LocalIndexSet → Nat → PQkMultiIndex
  /-- Member `LocalView::bind(e)`. -/
  lvBind : LocalView → Element → LocalView
  /-- Member `LocalView::unbind()`. -/
  lvUnbind : LocalView → LocalView
  /-- Member `LocalView::size()`. -/
  lvSize : LocalView → Nat
  /-- Member `LocalView::maxSize()`. -/
  lvMaxSize : LocalView → Nat
  /-- State of a freshly constructed leaf node. -/
  nodeInit : Node
  /-- Member `PQkNodalBasisLeafNode::bind(e)`. -/
  nodeBind : Node → Element → Node
  /-- Member `PQkNodalBasisLeafNode::size()`. -/
  nodeSize : Node → Nat

/-- The template parameter `GV` of the Taylor-Hood classes: the static constant
`GV::dimension`, the grid view and element types, and the two scalar sub-bases
`PQkNodalBasis<GV,1>` and `PQkNodalBasis<GV,2>` instantiated at it. -/
structure GV where
  /-- The constant `GV::dimension`, called `dim` in every class. -/
  dimension : Nat
  /-- The grid view type itself. -/
  GridView : Type
  /-- The type `GV::Codim<0>::Entity`. -/
  Element : Type
  /-- The sub-basis `PQkNodalBasis<GV,1>`. -/
  PQ1 : PQkNodalBasis GridView Element
  /-- The sub-basis `PQkNodalBasis<GV,2>`. -/
  PQ2 : PQkNodalBasis GridView Element

/-- Modelled from the spec: the local index functor `ShiftedIdentity<size_type>`
(its class is declared in a header outside the sources); it carries the offset
that "separates the first branch's local index range from the second's". -/
structure ShiftedIdentity where
  /-- The offset added to a local index. -/
  shift : Nat
deriving DecidableEq, Repr

/-- Modelled from the spec: the local index functor
`ShiftedIdentityWithStride<size_type>` (declared outside the sources), which
"adds a fixed per-component stride and origin". -/
structure ShiftedIdentityWithStride where
  /-- The origin (first constructor argument). -/
  shift : Nat
  /-- The stride (second constructor argument). -/
  stride : Nat
deriving DecidableEq, Repr

/-- Modelled from the spec: a `PQkNodalBasisLeafNode<GV,k,F>` (declared outside
the sources) is its local index functor, reachable through `localIndexFunctor()`,
together with the remaining node state that `bind` and `size` act on. -/
structure PQkNodalBasisLeafNode (F Node : Type) where
  /-- The functor returned by `localIndexFunctor()`. -/
  localIndexFunctor : F
  /-- The remaining state. -/
  node : Node

/-- A raw C++ pointer member: never assigned, `nullptr`, or the address of an
object (held here as that object). -/
inductive Pointer (α : Type) where
  | indeterminate : Pointer α
  | null : Pointer α
  | target (a : α) : Pointer α

/-! ## TaylorHoodVelocityTree and TaylorHoodBasisTree -/

/-- The class `TaylorHoodVelocityTree<GV>`: a `PowerNode` of `GV::dimension` leaf
nodes of the quadratic sub-basis. -/
structure TaylorHoodVelocityTree (G : GV) where
  /-- The children `child(0)`, ..., `child(dim-1)`. -/
  children : List (PQkNodalBasisLeafNode ShiftedIdentityWithStride G.PQ2.Node)
  /-- The number of children is the template argument `GV::dimension`. -/
  length_eq : children.length = G.dimension

/-- The constructor `TaylorHoodVelocityTree()`:
`setChild(i, Q2Node(LocalIndexFunctor(i, GV::dimension)))` for `i < GV::dimension`. -/
def TaylorHoodVelocityTree.construct (G : GV) : TaylorHoodVelocityTree G :=
  { children := (List.range G.dimension).map
      (fun i => { localIndexFunctor := { shift := i, stride := G.dimension },
                  node := G.PQ2.nodeInit }),
    length_eq := by simp }

/-- The class `TaylorHoodBasisTree<GV>`: a `CompositeNode` of the velocity tree
and the pressure leaf node. -/
structure TaylorHoodBasisTree (G : GV) where
  /-- The velocity node, `child<0>()`. -/
  child0 : TaylorHoodVelocityTree G
  /-- The pressure node, `child<1>()`. -/
  child1 : PQkNodalBasisLeafNode ShiftedIdentity G.PQ1.Node

/-- The constructor `TaylorHoodBasisTree()`; the pressure functor starts as the
dummy `ShiftedIdentity(0)`. -/
def TaylorHoodBasisTree.construct (G : GV) : TaylorHoodBasisTree G :=
  { child0 := TaylorHoodVelocityTree.construct G,
    child1 := { localIndexFunctor := { shift := 0 }, node := G.PQ1.nodeInit } }

/-! ## TaylorHoodBasis -/

/-- The class `TaylorHoodBasis<GV>`. -/
structure TaylorHoodBasis (G : GV) where
  /-- The member `pq1nodalbasis_`. -/
  pq1nodalbasis_ : G.PQ1.Basis
  /-- The member `pq2nodalbasis_`. -/
  pq2nodalbasis_ : G.PQ2.Basis

/-- The constructor `TaylorHoodBasis(gv)`. -/
def TaylorHoodBasis.construct (G : GV) (gv : G.GridView) : TaylorHoodBasis G :=
  { pq1nodalbasis_ := G.PQ1.construct gv, pq2nodalbasis_ := G.PQ2.construct gv }

/-- The member `TaylorHoodBasis::gridView()`. -/
def TaylorHoodBasis.gridView {G : GV} (b : TaylorHoodBasis G) : G.GridView :=
  G.PQ1.gridView b.pq1nodalbasis_

/-! ## TaylorHoodIndexSet -/

/-- The class `TaylorHoodIndexSet<GV>`. -/
structure TaylorHoodIndexSet (G : GV) where
  /-- The member `pq1IndexSet_`. -/
  pq1IndexSet_ : G.PQ1.IndexSet
  /-- The member `pq2IndexSet_`. -/
  pq2IndexSet_ : G.PQ2.IndexSet

/-- The constructor `TaylorHoodIndexSet(basis)`. -/
def TaylorHoodIndexSet.construct {G : GV} (basis : TaylorHoodBasis G) :
    TaylorHoodIndexSet G :=
  { pq1IndexSet_ := G.PQ1.indexSet basis.pq1nodalbasis_,
    pq2IndexSet_ := G.PQ2.indexSet basis.pq2nodalbasis_ }

/-- The member `TaylorHoodBasis::indexSet()`. -/
def TaylorHoodBasis.indexSet {G : GV} (b : TaylorHoodBasis G) : TaylorHoodIndexSet G :=
  TaylorHoodIndexSet.construct b

/-- The member `TaylorHoodIndexSet::dimension()`. -/
def TaylorHoodIndexSet.dimension {G : GV} (s : TaylorHoodIndexSet G) : Nat :=
  G.dimension * G.PQ2.indexSetSize s.pq2IndexSet_ + G.PQ1.indexSetSize s.pq1IndexSet_

/-- The member `TaylorHoodIndexSet::size()` without argument. -/
def TaylorHoodIndexSet.size {G : GV} (_s : TaylorHoodIndexSet G) : Nat :=
  2

/-- The member `TaylorHoodIndexSet::size(prefix)`; the argument is the content of
the `ReservedVector`.  The result is `none` where the source reaches
`assert(false)` and leaves the function without a return value. -/
def TaylorHoodIndexSet.sizeAt {G : GV} (s : TaylorHoodIndexSet G) (pfx : List Nat) :
    Option Nat :=
  match pfx with
  | [] => some 2
  | [b] =>
    if b = 0 then some (G.dimension * G.PQ2.indexSetSize s.pq2IndexSet_)
    else if b = 1 then some (G.PQ1.indexSetSize s.pq1IndexSet_)
    else none
  | _ :: _ :: _ => none

/-! ## TaylorHoodBasisLocalView -/

/-- The class `TaylorHoodBasisLocalView<GV>`.  The member `globalBasis_` is a
pointer to the basis that created the view and is held as that basis; `element_`
is `none` as long as it is the default-constructed entity. -/
structure TaylorHoodBasisLocalView (G : GV) where
  /-- The member `globalBasis_`. -/
  globalBasis_ : TaylorHoodBasis G
  /-- The member `pq1localView_`. -/
  pq1localView_ : G.PQ1.LocalView
  /-- The member `pq2localView_`. -/
  pq2localView_ : G.PQ2.LocalView
  /-- The member `element_`. -/
  element_ : Option G.Element
  /-- The member `tree_`. -/
  tree_ : TaylorHoodBasisTree G

/-- The constructor `TaylorHoodBasisLocalView(globalBasis)`. -/
def TaylorHoodBasisLocalView.construct {G : GV} (globalBasis : TaylorHoodBasis G) :
    TaylorHoodBasisLocalView G :=
  { globalBasis_ := globalBasis,
    pq1localView_ := G.PQ1.localView globalBasis.pq1nodalbasis_,
    pq2localView_ := G.PQ2.localView globalBasis.pq2nodalbasis_,
    element_ := none,
    tree_ := TaylorHoodBasisTree.construct G }

/-- The member `TaylorHoodBasis::localView()`. -/
def TaylorHoodBasis.localView {G : GV} (b : TaylorHoodBasis G) : TaylorHoodBasisLocalView G :=
  TaylorHoodBasisLocalView.construct b

/-- The loop `for (i < GV::dimension) tree_.child<0>().child(i).bind(element_)`
of `bind`. -/
def TaylorHoodVelocityTree.bindChildren {G : GV} (t : TaylorHoodVelocityTree G)
    (e : G.Element) : TaylorHoodVelocityTree G :=
  { children := t.children.map (fun c => { c with node := G.PQ2.nodeBind c.node e }),
    length_eq := by simp [t.length_eq] }

/-- The member `TaylorHoodBasisLocalView::bind(e)`.  The result is `none` when
`tree_.child<0>().child(0)`, whose size gives the pressure offset, does not
exist. -/
def TaylorHoodBasisLocalView.bind {G : GV} (v : TaylorHoodBasisLocalView G)
    (e : G.Element) : Option (TaylorHoodBasisLocalView G) :=
  let pq1localView := G.PQ1.lvBind v.pq1localView_ e
  let pq2localView := G.PQ2.lvBind v.pq2localView_ e
  let velocity := v.tree_.child0.bindChildren e
  let pressure : PQkNodalBasisLeafNode ShiftedIdentity G.PQ1.Node :=
    { v.tree_.child1 with node := G.PQ1.nodeBind v.tree_.child1.node e }
  match velocity.children.head? with
  | none => none
  | some child0 =>
    let pressureOffset := G.PQ2.nodeSize child0.node * G.dimension
    some { globalBasis_ := v.globalBasis_,
           pq1localView_ := pq1localView,
           pq2localView_ := pq2localView,
           element_ := some e,
           tree_ := { child0 := velocity,
                      child1 := { pressure with
                                  localIndexFunctor := { shift := pressureOffset } } } }

/-- The member `TaylorHoodBasisLocalView::element()`. -/
def TaylorHoodBasisLocalView.element {G : GV} (v : TaylorHoodBasisLocalView G) :
    Option G.Element :=
  v.element_

/-- The member `TaylorHoodBasisLocalView::unbind()`. -/
def TaylorHoodBasisLocalView.unbind {G : GV} (v : TaylorHoodBasisLocalView G) :
    TaylorHoodBasisLocalView G :=
  { v with pq1localView_ := G.PQ1.lvUnbind v.pq1localView_,
           pq2localView_ := G.PQ2.lvUnbind v.pq2localView_ }

/-- The member `TaylorHoodBasisLocalView::tree()`. -/
def TaylorHoodBasisLocalView.tree {G : GV} (v : TaylorHoodBasisLocalView G) :
    TaylorHoodBasisTree G :=
  v.tree_

/-- The member `TaylorHoodBasisLocalView::size()`. -/
def TaylorHoodBasisLocalView.size {G : GV} (v : TaylorHoodBasisLocalView G) : Nat :=
  G.dimension * G.PQ2.lvSize v.pq2localView_ + G.PQ1.lvSize v.pq1localView_

/-- The member `TaylorHoodBasisLocalView::maxSize()`. -/
def TaylorHoodBasisLocalView.maxSize {G : GV} (v : TaylorHoodBasisLocalView G) : Nat :=
  G.dimension * G.PQ2.lvMaxSize v.pq2localView_ + G.PQ1.lvMaxSize v.pq1localView_

/-- The member `TaylorHoodBasisLocalView::globalBasis()`. -/
def TaylorHoodBasisLocalView.globalBasis {G : GV} (v : TaylorHoodBasisLocalView G) :
    TaylorHoodBasis G :=
  v.globalBasis_

/-! ## TaylorHoodLocalIndexSet -/

/-- The type `MultiIndex = std::array<size_type,2>` of the Taylor-Hood classes.
An entry is `none` until the source assigns it. -/
structure MultiIndex where
  /-- Entry `[0]`, the branch selector. -/
  e0 : Option Nat
  /-- Entry `[1]`, the index within the branch. -/
  e1 : Option Nat
deriving DecidableEq, Repr

/-- The class `TaylorHoodLocalIndexSet<GV>`. -/
structure TaylorHoodLocalIndexSet (G : GV) where
  /-- The member `localView_`. -/
  localView_ : Pointer (TaylorHoodBasisLocalView G)
  /-- The member `indexSet_`. -/
  indexSet_ : TaylorHoodIndexSet G
  /-- The member `pq1LocalIndexSet_`. -/
  pq1LocalIndexSet_ : G.PQ1.LocalIndexSet
  /-- The member `pq2LocalIndexSet_`. -/
  pq2LocalIndexSet_ : G.PQ2.LocalIndexSet

/-- The constructor `TaylorHoodLocalIndexSet(indexSet)`; its initialiser list
does not mention `localView_`. -/
def TaylorHoodLocalIndexSet.construct {G : GV} (indexSet : TaylorHoodIndexSet G) :
    TaylorHoodLocalIndexSet G :=
  { localView_ := Pointer.indeterminate,
    indexSet_ := indexSet,
    pq1LocalIndexSet_ := G.PQ1.localIndexSet indexSet.pq1IndexSet_,
    pq2LocalIndexSet_ := G.PQ2.localIndexSet indexSet.pq2IndexSet_ }

/-- The member `TaylorHoodIndexSet::localIndexSet()`. -/
def TaylorHoodIndexSet.localIndexSet {G : GV} (s : TaylorHoodIndexSet G) :
    TaylorHoodLocalIndexSet G :=
  TaylorHoodLocalIndexSet.construct s

/-- The member `TaylorHoodLocalIndexSet::bind(localView)`. -/
def TaylorHoodLocalIndexSet.bind {G : GV} (s : TaylorHoodLocalIndexSet G)
    (localView : TaylorHoodBasisLocalView G) : TaylorHoodLocalIndexSet G :=
  { s with localView_ := Pointer.target localView,
           pq1LocalIndexSet_ := G.PQ1.lisBind s.pq1LocalIndexSet_ localView.pq1localView_,
           pq2LocalIndexSet_ := G.PQ2.lisBind s.pq2LocalIndexSet_ localView.pq2localView_ }

/-- The member `TaylorHoodLocalIndexSet::unbind()`. -/
def TaylorHoodLocalIndexSet.unbind {G : GV} (s : TaylorHoodLocalIndexSet G) :
    TaylorHoodLocalIndexSet G :=
  { s with localView_ := Pointer.null,
           pq1LocalIndexSet_ := G.PQ1.lisUnbind s.pq1LocalIndexSet_,
           pq2LocalIndexSet_ := G.PQ2.lisUnbind s.pq2LocalIndexSet_ }

/-- The member `TaylorHoodLocalIndexSet::size()`. -/
def TaylorHoodLocalIndexSet.size {G : GV} (s : TaylorHoodLocalIndexSet G) : Nat :=
  G.dimension * G.PQ2.lisSize s.pq2LocalIndexSet_ + G.PQ1.lisSize s.pq1LocalIndexSet_

/-- The member `TaylorHoodLocalIndexSet::index(localIndex)`.  The result is `none`
when `v_size` is zero, where the source divides by zero; entry `[1]` of the result
stays unassigned when neither `mi[0] == 0` nor `mi[0] == 1`. -/
def TaylorHoodLocalIndexSet.index {G : GV} (s : TaylorHoodLocalIndexSet G)
    (localIndex : Nat) : Option MultiIndex :=
  let v_size := G.dimension * G.PQ2.lisSize s.pq2LocalIndexSet_
  if v_size = 0 then none
  else
    let mi0 := localIndex / v_size
    let mi1 : Option Nat :=
      if mi0 = 0 then
        let v_comp := localIndex % G.dimension
        let v_localIndex := localIndex / G.dimension
        some ((G.PQ2.lisIndex s.pq2LocalIndexSet_ v_localIndex).e0 * G.dimension + v_comp)
      else none
    let mi1 : Option Nat :=
      if mi0 = 1 then
        some (G.PQ1.lisIndex s.pq1LocalIndexSet_ (localIndex - v_size)).e0
      else mi1
    some { e0 := some mi0, e1 := mi1 }

/-- The member `TaylorHoodLocalIndexSet::localView()`, which dereferences
`localView_`. -/
def TaylorHoodLocalIndexSet.localView {G : GV} (s : TaylorHoodLocalIndexSet G) :
    Option (TaylorHoodBasisLocalView G) :=
  match s.localView_ with
  | Pointer.target v => some v
  | _ => none

/-! ## Flat numbering and the indices produced over a set of elements -/

/-- Modelled from the spec: the call operator of `ShiftedIdentity` (declared
outside the sources), which continues the local indices after the offset: the
`i`-th shape function gets the local index `i + shift`. -/
def ShiftedIdentity.apply (f : ShiftedIdentity) (i : Nat) : Nat :=
  i + f.shift

/-- Modelled from the spec: the call operator of `ShiftedIdentityWithStride`
(declared outside the sources), which "adds a fixed per-component stride and
origin": the `i`-th shape function gets the local index `shift + i * stride`. -/
def ShiftedIdentityWithStride.apply (f : ShiftedIdentityWithStride) (i : Nat) : Nat :=
  f.shift + i * f.stride

/-- A call of a member of `TaylorHoodBasisLocalView` that changes its state. -/
inductive LocalViewCall (G : GV) where
  | bind (e : G.Element) : LocalViewCall G
  | unbind : LocalViewCall G

/-- The state of a local view after one call. -/
def TaylorHoodBasisLocalView.call {G : GV} (v : TaylorHoodBasisLocalView G) :
    LocalViewCall G → Option (TaylorHoodBasisLocalView G)
  | LocalViewCall.bind e => v.bind e
  | LocalViewCall.unbind => some v.unbind

/-- The state of a local view after a sequence of calls, `none` as soon as one of
them is undefined. -/
def TaylorHoodBasisLocalView.run {G : GV} (v : TaylorHoodBasisLocalView G) :
    List (LocalViewCall G) → Option (TaylorHoodBasisLocalView G)
  | [] => some v
  | c :: cs =>
    match v.call c with
    | none => none
    | some v1 => v1.run cs

/-- A call of a member of `TaylorHoodLocalIndexSet` that changes its state. -/
inductive LocalIndexSetCall (G : GV) where
  | bind (localView : TaylorHoodBasisLocalView G) : LocalIndexSetCall G
  | unbind : LocalIndexSetCall G

/-- The state of a local index set after one call. -/
def TaylorHoodLocalIndexSet.call {G : GV} (s : TaylorHoodLocalIndexSet G) :
    LocalIndexSetCall G → TaylorHoodLocalIndexSet G
  | LocalIndexSetCall.bind v => s.bind v
  | LocalIndexSetCall.unbind => s.unbind

/-- The state of a local index set after a sequence of calls. -/
def TaylorHoodLocalIndexSet.run {G : GV} (s : TaylorHoodLocalIndexSet G)
    (calls : List (LocalIndexSetCall G)) : TaylorHoodLocalIndexSet G :=
  calls.foldl TaylorHoodLocalIndexSet.call s

/-! ## The scalar sub-bases as the specification describes them -/

/-- The members of the grid view type `GV` that `GridViewEntitySet<GV,cd>` calls,
for entities of the codimension of the set; the grid view is defined outside the
sources.  An iterator range is described by the entities that a loop from its first
to its second iterator visits. -/
structure GridViewInterface (GridView Entity : Type) where
  /-- The type `GV::Codim<cd>::Iterator`. -/
  Iterator : Type
  /-- Member `contains(e)`. -/
  contains : GridView → Entity → Bool
  /-- Member `size(codim)`. -/
  size : GridView → Nat → Nat
  /-- Member `begin<codim>()`. -/
  begin : GridView → Nat → Iterator
  /-- Member `end<codim>()`. -/
  end_ : GridView → Nat → Iterator
  /-- The entities visited by incrementing the first iterator until it equals the
  second. -/
  visited : Iterator → Iterator → List Entity

/-- The class `GridViewEntitySet<GV,cd>`; the member `gv_` is a reference to a
constant grid view and is held as that grid view. -/
structure GridViewEntitySet {GridView Entity : Type} (I : GridViewInterface GridView Entity)
    (codim : Nat) where
  /-- The member `gv_`. -/
  gv_ : GridView

/-- The constructor `GridViewEntitySet(gv)`. -/
def GridViewEntitySet.construct {GridView Entity : Type} (I : GridViewInterface GridView Entity)
    (codim : Nat) (gv : GridView) : GridViewEntitySet I codim :=
  { gv_ := gv }

/-- The member `GridViewEntitySet::contains(e)`. -/
def GridViewEntitySet.contains {GridView Entity : Type} {I : GridViewInterface GridView Entity}
    {codim : Nat} (s : GridViewEntitySet I codim) (e : Entity) : Bool :=
  I.contains s.gv_ e

/-- The member `GridViewEntitySet::size()`. -/
def GridViewEntitySet.size {GridView Entity : Type} {I : GridViewInterface GridView Entity}
    {codim : Nat} (s : GridViewEntitySet I codim) : Nat :=
  I.size s.gv_ codim

/-- The member `GridViewEntitySet::begin()`. -/
def GridViewEntitySet.begin {GridView Entity : Type} {I : GridViewInterface GridView Entity}
    {codim : Nat} (s : GridViewEntitySet I codim) : I.Iterator :=
  I.begin s.gv_ codim

/-- The member `GridViewEntitySet::end()`. -/
def GridViewEntitySet.end_ {GridView Entity : Type} {I : GridViewInterface GridView Entity}
    {codim : Nat} (s : GridViewEntitySet I codim) : I.Iterator :=
  I.end_ s.gv_ codim

/-- The member `GridViewEntitySet::gridView()`. -/
def GridViewEntitySet.gridView {GridView Entity : Type} {I : GridViewInterface GridView Entity}
    {codim : Nat} (s : GridViewEntitySet I codim) : GridView :=
  s.gv_

end Dune.Functions

/-! ## Container descriptors -/

namespace Dune.Functions.ContainerDescriptors

/-- The struct `Unknown`, the fallback descriptor; it has no members. -/
structure Unknown where
deriving DecidableEq, Repr

/-- The struct `Value`, the placeholder for a value. -/
structure Value where
deriving DecidableEq, Repr

/-- The member `Value::operator[]`, which returns `{}`. -/
def Value.get (_v : Value) (_i : Nat) : Value :=
  {}

/-- The member `Value::size()`. -/
def Value.size (_v : Value) : Nat :=
  0

/-- The alias `Tuple<Children...> = Dune::TupleVector<Children...>`: one slot for
each child, in the order of the template arguments. -/
structure Tuple (Child : Type) where
  /-- The stored children. -/
  children : List Child

/-- The member `size()` of a `Tuple`, the number of template arguments. -/
def Tuple.size {Child : Type} (t : Tuple Child) : Nat :=
  t.children.length

/-- The member `operator[]` of a `Tuple`; an index that is not below `size()` is
rejected at compile time, hence `none`. -/
def Tuple.get {Child : Type} (t : Tuple Child) (i : Nat) : Option Child :=
  t.children[i]?

/-- The alias `Array<Child,n> = std::array<Child,n>`. -/
structure Array (Child : Type) (n : Nat) where
  /-- The elements. -/
  elems : List Child
  /-- There are `n` of them. -/
  size_eq : elems.length = n

/-- The member `size()` of an `Array`, the template argument `n`. -/
def Array.size {Child : Type} {n : Nat} (_a : Array Child n) : Nat :=
  n

/-- The member `operator[]` of an `Array`; access at `i >= n` is undefined, hence
`none`. -/
def Array.get {Child : Type} {n : Nat} (a : Array Child n) (i : Nat) : Option Child :=
  a.elems[i]?

/-- The alias `Vector<Child> = std::vector<Child>`. -/
structure Vector (Child : Type) where
  /-- The elements. -/
  elems : List Child

/-- The member `size()` of a `Vector`. -/
def Vector.size {Child : Type} (v : Vector Child) : Nat :=
  v.elems.length

/-- The member `operator[]` of a `Vector`; access beyond the end is undefined,
hence `none`. -/
def Vector.get {Child : Type} (v : Vector Child) (i : Nat) : Option Child :=
  v.elems[i]?

/-- The first overload of `makeDescriptor`, returning a `Tuple`.  It takes part in
overload resolution only if `sizeof...(Children) > 0` and some type among
`Children` differs from `Child0`; `typeOf` gives the static type of an argument. -/
def makeDescriptorTuple {Child Ty : Type} [DecidableEq Ty] (typeOf : Child → Ty)
    (child0 : Child) (children : List Child) : Option (Tuple Child) :=
  if 0 < children.length ∧ (children.any (fun c => !decide (typeOf child0 = typeOf c))) = true
  then some { children := child0 :: children }
  else none

/-- The second overload of `makeDescriptor`, returning an
`Array<Child0, 1+sizeof...(Children)>`.  It takes part in overload resolution only
if every type among `Children` is `Child0`. -/
def makeDescriptorArray {Child Ty : Type} [DecidableEq Ty] (typeOf : Child → Ty)
    (child0 : Child) (children : List Child) : Option (Array Child (1 + children.length)) :=
  if (children.all (fun c => decide (typeOf child0 = typeOf c))) = true
  then some { elems := child0 :: children, size_eq := by simp [Nat.add_comm] }
  else none

/-- A call `makeDescriptor(child0, children...)`: the overload that is enabled is
called; the call is ill-formed (`none`) when no overload or more than one is
enabled. -/
def makeDescriptor {Child Ty : Type} [DecidableEq Ty] (typeOf : Child → Ty)
    (child0 : Child) (children : List Child) :
    Option (Tuple Child ⊕ Array Child (1 + children.length)) :=
  match makeDescriptorTuple typeOf child0 children,
        makeDescriptorArray typeOf child0 children with
  | some t, none => some (Sum.inl t)
  | none, some a => some (Sum.inr a)
  | _, _ => none

/-- The struct `UniformArray<Child,n>`. -/
structure UniformArray (Child : Type) (n : Nat) where
  /-- The member `child_`. -/
  child_ : Child

/-- The member `UniformArray::operator[]`; the index is ignored. -/
def UniformArray.get {Child : Type} {n : Nat} (a : UniformArray Child n) (_i : Nat) : Child :=
  a.child_

/-- The member `UniformArray::size()`. -/
def UniformArray.size {Child : Type} {n : Nat} (_a : UniformArray Child n) : Nat :=
  n

/-- The overload `makeUniformDescriptor(std::integral_constant<std::size_t,n>, child)`. -/
def makeUniformDescriptorStatic {Child : Type} (n : Nat) (child : Child) :
    UniformArray Child n :=
  { child_ := child }

/-- The struct `UniformVector<Child>`. -/
structure UniformVector (Child : Type) where
  /-- The member `size_`. -/
  size_ : Nat
  /-- The member `child_`. -/
  child_ : Child
deriving DecidableEq

/-- The member `UniformVector::operator[]`; the index is ignored. -/
def UniformVector.get {Child : Type} (v : UniformVector Child) (_i : Nat) : Child :=
  v.child_

/-- The member `UniformVector::size()`. -/
def UniformVector.size {Child : Type} (v : UniformVector Child) : Nat :=
  v.size_

/-- The overload `makeUniformDescriptor(std::size_t n, child)`. -/
def makeUniformDescriptor {Child : Type} (n : Nat) (child : Child) : UniformVector Child :=
  { size_ := n, child_ := child }

end Dune.Functions.ContainerDescriptors

/-! ## Example instances

Small instances on which the definitions are evaluated. -/

namespace Dune.Functions.Example

/-- A scalar sub-basis given by a table: row `e` lists the global indices of the
local degrees of freedom of element `e`.  Local views, local index sets and leaf
nodes remember the element they are bound to. -/
abbrev tableBasis (globalSize : Nat) (table : List (List Nat)) : PQkNodalBasis Unit Nat :=
  { Basis := Unit
    IndexSet := Unit
    LocalIndexSet := Option Nat
    LocalView := Option Nat
    Node := Option Nat
    construct := fun _ => ()
    gridView := fun _ => ()
    indexSet := fun _ => ()
    localView := fun _ => none
    indexSetSize := fun _ => globalSize
    localIndexSet := fun _ => none
    lisBind := fun _ v => v
    lisUnbind := fun _ => none
    lisSize := fun s => match s with
      | some e => (table.getD e []).length
      | none => 0
    lisIndex := fun s j => match s with
      | some e => { e0 := (table.getD e []).getD j 0 }
      | none => { e0 := 0 }
    lvBind := fun _ e => some e
    lvUnbind := fun _ => none
    lvSize := fun s => match s with
      | some e => (table.getD e []).length
      | none => 0
    lvMaxSize := fun _ => (table.map List.length).foldr max 0
    nodeInit := none
    nodeBind := fun _ e => some e
    nodeSize := fun s => match s with
      | some e => (table.getD e []).length
      | none => 0 }

/-- Two triangles `0` and `1` sharing an edge, `GV::dimension = 2`: four vertices
(degree 1, three per element) and four vertices plus five edges (degree 2, six per
element). -/
abbrev twoTriangles : GV :=
  { dimension := 2
    GridView := Unit
    Element := Nat
    PQ1 := tableBasis 4 [[0, 1, 2], [1, 2, 3]]
    PQ2 := tableBasis 9 [[0, 1, 2, 4, 5, 6], [1, 2, 3, 6, 7, 8]] }

/-- A one-element instance with `GV::dimension = 1` whose first sub-basis has two
local degrees of freedom and whose second has one. -/
abbrev wideLinear : GV :=
  { dimension := 1
    GridView := Unit
    Element := Nat
    PQ1 := tableBasis 2 [[0, 1]]
    PQ2 := tableBasis 1 [[0]] }

/-- The Taylor-Hood basis on `twoTriangles`. -/
def trianglesBasis : TaylorHoodBasis twoTriangles :=
  TaylorHoodBasis.construct twoTriangles ()

/-- The Taylor-Hood basis on `wideLinear`. -/
def wideBasis : TaylorHoodBasis wideLinear :=
  TaylorHoodBasis.construct wideLinear ()

/-- A fresh local view of `trianglesBasis`, bound to element `e`. -/
def trianglesViewAt (e : Nat) : TaylorHoodBasisLocalView twoTriangles :=
  (trianglesBasis.localView.bind e).getD trianglesBasis.localView

/-- A fresh local index set of `trianglesBasis`. -/
def trianglesLocalIndexSet : TaylorHoodLocalIndexSet twoTriangles :=
  trianglesBasis.indexSet.localIndexSet

/-- A fresh local view of `wideBasis`, bound to element `e`. -/
def wideViewAt (e : Nat) : TaylorHoodBasisLocalView wideLinear :=
  (wideBasis.localView.bind e).getD wideBasis.localView

/-- A fresh local index set of `wideBasis`. -/
def wideLocalIndexSet : TaylorHoodLocalIndexSet wideLinear :=
  wideBasis.indexSet.localIndexSet

/-- A scalar sub-basis like `tableBasis` over grid views that are labelled by a
number; the basis stores the label of the grid view it is constructed from. -/
abbrev labelledBasis (globalSize : Nat) (table : List (List Nat)) : PQkNodalBasis Nat Nat :=
  { tableBasis globalSize table with
    Basis := Nat
    construct := fun gv => gv
    gridView := fun b => b
    indexSet := fun _ => ()
    localView := fun _ => none }

/-- The two triangles of `twoTriangles` as the grid view with label `gv`. -/
abbrev labelledTriangles : GV :=
  { dimension := 2
    GridView := Nat
    Element := Nat
    PQ1 := labelledBasis 4 [[0, 1, 2], [1, 2, 3]]
    PQ2 := labelledBasis 9 [[0, 1, 2, 4, 5, 6], [1, 2, 3, 6, 7, 8]] }

/-- Child descriptors of two different C++ types, `Value` and
`FlatVector = UniformVector<Value>`. -/
inductive Leaf where
  | value (v : ContainerDescriptors.Value) : Leaf
  | flatVector (v : ContainerDescriptors.UniformVector ContainerDescriptors.Value) : Leaf
deriving DecidableEq

/-- The two C++ types of `Leaf`. -/
inductive LeafType where
  | value : LeafType
  | flatVector : LeafType
deriving DecidableEq

/-- The static type of a `Leaf`. -/
def Leaf.typeOf : Leaf → LeafType
  | Leaf.value _ => LeafType.value
  | Leaf.flatVector _ => LeafType.flatVector

/-- A one-element instance with `GV::dimension = 1` whose quadratic sub-basis has no
local degree of freedom on the element, and whose linear sub-basis has one. -/
abbrev emptyQuadratic : GV :=
  { dimension := 1
    GridView := Unit
    Element := Nat
    PQ1 := tableBasis 1 [[0]]
    PQ2 := tableBasis 0 [[]] }

/-- The Taylor-Hood basis on `emptyQuadratic`. -/
def emptyBasis : TaylorHoodBasis emptyQuadratic :=
  TaylorHoodBasis.construct emptyQuadratic ()

/-- A fresh local view of `emptyBasis`, bound to element `e`. -/
def emptyViewAt (e : Nat) : TaylorHoodBasisLocalView emptyQuadratic :=
  (emptyBasis.localView.bind e).getD emptyBasis.localView

/-- A fresh local index set of `emptyBasis`. -/
def emptyLocalIndexSet : TaylorHoodLocalIndexSet emptyQuadratic :=
  emptyBasis.indexSet.localIndexSet

/-- Grid views given by the list of their elements (codimension 0); an iterator is
the list of the elements still to be visited. -/
abbrev listGridView : GridViewInterface (List Nat) Nat :=
  { Iterator := List Nat
    contains := fun gv e => gv.contains e
    size := fun gv codim => if codim = 0 then gv.length else 0
    begin := fun gv codim => if codim = 0 then gv else []
    end_ := fun _ _ => []
    visited := fun first last => first.take (first.length - last.length) }

end Dune.Functions.Example

/-! ## Properties of `TaylorHoodLocalIndexSet::index` -/

namespace Dune.Functions

open Example

/-- On the first range `[0, v_size)` the selector is 0 and entry `[1]` interleaves
the components. -/
theorem TaylorHoodLocalIndexSet.index_eq_of_lt {G : GV} (s : TaylorHoodLocalIndexSet G)
    (i : Nat) (hi : i < G.dimension * G.PQ2.lisSize s.pq2LocalIndexSet_) :
    s.index i = some
      { e0 := some 0,
        e1 := some ((G.PQ2.lisIndex s.pq2LocalIndexSet_ (i / G.dimension)).e0 * G.dimension
                      + i % G.dimension) } := by
  have hv : G.dimension * G.PQ2.lisSize s.pq2LocalIndexSet_ ≠ 0 := by omega
  have hdiv : i / (G.dimension * G.PQ2.lisSize s.pq2LocalIndexSet_) = 0 :=
    Nat.div_eq_of_lt hi
  simp [TaylorHoodLocalIndexSet.index, hv, hdiv]

/-- On the range `[v_size, 2*v_size)` the selector is 1 and entry `[1]` is the
index of the linear sub-basis at `localIndex - v_size`. -/
theorem TaylorHoodLocalIndexSet.index_eq_of_le_of_lt {G : GV}
    (s : TaylorHoodLocalIndexSet G) (i : Nat)
    (h1 : G.dimension * G.PQ2.lisSize s.pq2LocalIndexSet_ ≤ i)
    (h2 : i < 2 * (G.dimension * G.PQ2.lisSize s.pq2LocalIndexSet_)) :
    s.index i = some
      { e0 := some 1,
        e1 := some (G.PQ1.lisIndex s.pq1LocalIndexSet_
                      (i - G.dimension * G.PQ2.lisSize s.pq2LocalIndexSet_)).e0 } := by
  have hv : G.dimension * G.PQ2.lisSize s.pq2LocalIndexSet_ ≠ 0 := by omega
  have hdiv : i / (G.dimension * G.PQ2.lisSize s.pq2LocalIndexSet_) = 1 := by
    apply Nat.div_eq_of_lt_le <;> omega
  simp [TaylorHoodLocalIndexSet.index, hv, hdiv]

/-- From `2*v_size` on, the selector is at least 2 and entry `[1]` is never
assigned. -/
theorem TaylorHoodLocalIndexSet.index_eq_of_two_mul_le {G : GV}
    (s : TaylorHoodLocalIndexSet G) (i : Nat)
    (h0 : 0 < G.dimension * G.PQ2.lisSize s.pq2LocalIndexSet_)
    (h2 : 2 * (G.dimension * G.PQ2.lisSize s.pq2LocalIndexSet_) ≤ i) :
    s.index i = some
      { e0 := some (i / (G.dimension * G.PQ2.lisSize s.pq2LocalIndexSet_)), e1 := none } ∧
    2 ≤ i / (G.dimension * G.PQ2.lisSize s.pq2LocalIndexSet_) := by
  have hv : G.dimension * G.PQ2.lisSize s.pq2LocalIndexSet_ ≠ 0 := by omega
  have hdiv : 2 ≤ i / (G.dimension * G.PQ2.lisSize s.pq2LocalIndexSet_) := by
    rw [Nat.le_div_iff_mul_le h0]; omega
  refine ⟨?_, hdiv⟩
  have n0 : i / (G.dimension * G.PQ2.lisSize s.pq2LocalIndexSet_) ≠ 0 := by omega
  have n1 : i / (G.dimension * G.PQ2.lisSize s.pq2LocalIndexSet_) ≠ 1 := by omega
  simp [TaylorHoodLocalIndexSet.index, hv, n0, n1]

/-- With `v_size = 0` the division of `index` is by zero. -/
theorem TaylorHoodLocalIndexSet.index_eq_none {G : GV} (s : TaylorHoodLocalIndexSet G)
    (i : Nat) (h0 : G.dimension * G.PQ2.lisSize s.pq2LocalIndexSet_ = 0) :
    s.index i = none := by
  simp [TaylorHoodLocalIndexSet.index, h0]

/-- Claim C1. For a local index set bound to a local view, with component count
`dim >= 1` and quadratic local size `s2 >= 1`, every local index `i < dim*s2` has
`index(i) = [0, g2(i div dim)*dim + (i mod dim)]`, where `g2(j)` is entry 0 of the
quadratic sub-basis local index set's `index(j)`. -/
theorem TaylorHoodLocalIndexSet.index_velocity {G : GV} (s0 : TaylorHoodLocalIndexSet G)
    (v : TaylorHoodBasisLocalView G) (i : Nat)
    (_hdim : 1 ≤ G.dimension)
    (_hs2 : 1 ≤ G.PQ2.lisSize (G.PQ2.lisBind s0.pq2LocalIndexSet_ v.pq2localView_))
    (hi : i < G.dimension * G.PQ2.lisSize (G.PQ2.lisBind s0.pq2LocalIndexSet_ v.pq2localView_)) :
    (s0.bind v).index i = some
      { e0 := some 0,
        e1 := some ((G.PQ2.lisIndex (G.PQ2.lisBind s0.pq2LocalIndexSet_ v.pq2localView_)
                      (i / G.dimension)).e0 * G.dimension + i % G.dimension) } :=
  TaylorHoodLocalIndexSet.index_eq_of_lt (s0.bind v) i hi

/-- Claim C1 at the two-triangle instance: element 1, local index 7 (component 1
of local function 3, global index 6) gives `[0, 13]`. -/
theorem TaylorHoodLocalIndexSet.index_velocity_witness :
    trianglesBasis.localView.bind 1 = some (trianglesViewAt 1) ∧
    1 ≤ twoTriangles.dimension ∧
    1 ≤ twoTriangles.PQ2.lisSize (twoTriangles.PQ2.lisBind
          trianglesLocalIndexSet.pq2LocalIndexSet_ (trianglesViewAt 1).pq2localView_) ∧
    7 < twoTriangles.dimension * twoTriangles.PQ2.lisSize (twoTriangles.PQ2.lisBind
          trianglesLocalIndexSet.pq2LocalIndexSet_ (trianglesViewAt 1).pq2localView_) ∧
    (trianglesLocalIndexSet.bind (trianglesViewAt 1)).index 7
      = some { e0 := some 0, e1 := some 13 } :=
  ⟨rfl, by decide, by decide, by decide,
   TaylorHoodLocalIndexSet.index_velocity trianglesLocalIndexSet (trianglesViewAt 1) 7
     (by decide) (by decide) (by decide)⟩

/-- The state after a successful `bind(e)`, member by member. -/
theorem TaylorHoodBasisLocalView.bind_eq_some {G : GV} (v v1 : TaylorHoodBasisLocalView G)
    (e : G.Element) (h : v.bind e = some v1) :
    v1.globalBasis_ = v.globalBasis_ ∧
    v1.pq1localView_ = G.PQ1.lvBind v.pq1localView_ e ∧
    v1.pq2localView_ = G.PQ2.lvBind v.pq2localView_ e ∧
    v1.element_ = some e ∧
    v1.tree_.child0 = v.tree_.child0.bindChildren e ∧
    v1.tree_.child1.node = G.PQ1.nodeBind v.tree_.child1.node e ∧
    ∃ c0, (v.tree_.child0.bindChildren e).children.head? = some c0 ∧
      v1.tree_.child1.localIndexFunctor = { shift := G.PQ2.nodeSize c0.node * G.dimension } := by
  unfold TaylorHoodBasisLocalView.bind at h
  cases hc : (v.tree_.child0.bindChildren e).children.head? with
  | none => simp [hc] at h
  | some c0 =>
    simp only [hc, Option.some.injEq] at h
    subst h
    exact ⟨rfl, rfl, rfl, rfl, rfl, rfl, c0, rfl, rfl⟩

/-- With at least one velocity component, `bind(e)` is defined. -/
theorem TaylorHoodBasisLocalView.bind_isSome {G : GV} (v : TaylorHoodBasisLocalView G)
    (e : G.Element) (hdim : 0 < G.dimension) : ∃ v1, v.bind e = some v1 := by
  have hlen := (v.tree_.child0.bindChildren e).length_eq
  cases hc : (v.tree_.child0.bindChildren e).children with
  | nil => rw [hc] at hlen; simp at hlen; omega
  | cons c0 cs =>
    simp [TaylorHoodBasisLocalView.bind, hc]

/-- Claim C5. `dimension()` equals `dim * N2 + N1`, with `N2` and `N1` the global
sizes of the quadratic and linear sub-basis index sets, and therefore equals the sum
of `size([b])` over all branches `b < size()`; each of these `size([b])` is defined. -/
theorem TaylorHoodIndexSet.dimension_eq {G : GV} (s : TaylorHoodIndexSet G) :
    s.dimension = G.dimension * G.PQ2.indexSetSize s.pq2IndexSet_
                    + G.PQ1.indexSetSize s.pq1IndexSet_ ∧
    (List.range s.size).map (fun b => s.sizeAt [b])
      = [some (G.dimension * G.PQ2.indexSetSize s.pq2IndexSet_),
         some (G.PQ1.indexSetSize s.pq1IndexSet_)] ∧
    ((List.range s.size).map (fun b => (s.sizeAt [b]).getD 0)).sum = s.dimension := by
  refine ⟨rfl, ?_, ?_⟩
  · simp [TaylorHoodIndexSet.size, TaylorHoodIndexSet.sizeAt, List.range_succ]
  · simp [TaylorHoodIndexSet.size, TaylorHoodIndexSet.sizeAt, List.range_succ,
      TaylorHoodIndexSet.dimension]

/-- Claim C6. `size()` and `size(empty prefix)` both return 2; `size([0])` returns
`dim` times the quadratic sub-basis global size and `size([1])` returns the linear
sub-basis global size. -/
theorem TaylorHoodIndexSet.size_eq {G : GV} (s : TaylorHoodIndexSet G) :
    s.size = 2 ∧
    s.sizeAt [] = some 2 ∧
    s.sizeAt [0] = some (G.dimension * G.PQ2.indexSetSize s.pq2IndexSet_) ∧
    s.sizeAt [1] = some (G.PQ1.indexSetSize s.pq1IndexSet_) := by
  refine ⟨rfl, rfl, ?_, ?_⟩ <;> simp [TaylorHoodIndexSet.sizeAt]

/-- Claim C7. For a local view bound to an element `e` and a local index set bound
to that view, `localView.size() = dim * (quadratic child local size)
+ (linear child local size) = localIndexSet.size()`, provided each sub-basis local
index set reports the same size as the sub-basis local view it is bound to. -/
theorem TaylorHoodBasisLocalView.size_eq_localIndexSet_size {G : GV}
    (v0 v : TaylorHoodBasisLocalView G) (e : G.Element) (s0 : TaylorHoodLocalIndexSet G)
    (hb : v0.bind e = some v)
    (h1 : G.PQ1.lisSize (G.PQ1.lisBind s0.pq1LocalIndexSet_ v.pq1localView_)
            = G.PQ1.lvSize v.pq1localView_)
    (h2 : G.PQ2.lisSize (G.PQ2.lisBind s0.pq2LocalIndexSet_ v.pq2localView_)
            = G.PQ2.lvSize v.pq2localView_) :
    v.size = G.dimension * G.PQ2.lvSize (G.PQ2.lvBind v0.pq2localView_ e)
               + G.PQ1.lvSize (G.PQ1.lvBind v0.pq1localView_ e) ∧
    v.size = (s0.bind v).size := by
  obtain ⟨-, e1, e2, -⟩ := TaylorHoodBasisLocalView.bind_eq_some _ _ _ hb
  constructor
  · unfold TaylorHoodBasisLocalView.size
    rw [e1, e2]
  · show _ = G.dimension * G.PQ2.lisSize (G.PQ2.lisBind s0.pq2LocalIndexSet_ v.pq2localView_)
          + G.PQ1.lisSize (G.PQ1.lisBind s0.pq1LocalIndexSet_ v.pq1localView_)
    rw [h1, h2]
    rfl

/-- Claim C7 at the two-triangle instance, element 0: both sizes are
`2*6 + 3 = 15`. -/
theorem TaylorHoodBasisLocalView.size_eq_localIndexSet_size_witness :
    (trianglesViewAt 0).size = 15 ∧
    ((trianglesViewAt 0).size
       = twoTriangles.dimension
           * twoTriangles.PQ2.lvSize (twoTriangles.PQ2.lvBind
               trianglesBasis.localView.pq2localView_ 0)
         + twoTriangles.PQ1.lvSize (twoTriangles.PQ1.lvBind
               trianglesBasis.localView.pq1localView_ 0) ∧
     (trianglesViewAt 0).size = (trianglesLocalIndexSet.bind (trianglesViewAt 0)).size) :=
  ⟨by decide,
   TaylorHoodBasisLocalView.size_eq_localIndexSet_size trianglesBasis.localView
     (trianglesViewAt 0) 0 trianglesLocalIndexSet rfl (by decide) (by decide)⟩

/-- Claim C9. `maxSize() = dim * (quadratic child maxSize) + (linear child maxSize)`,
and for a view bound to an element it is an upper bound of `size()` whenever each
child local view's `size()` is at most that child's `maxSize()`. -/
theorem TaylorHoodBasisLocalView.size_le_maxSize {G : GV}
    (v0 v : TaylorHoodBasisLocalView G) (e : G.Element)
    (hb : v0.bind e = some v)
    (h1 : G.PQ1.lvSize v.pq1localView_ ≤ G.PQ1.lvMaxSize v.pq1localView_)
    (h2 : G.PQ2.lvSize v.pq2localView_ ≤ G.PQ2.lvMaxSize v.pq2localView_) :
    v.maxSize = G.dimension * G.PQ2.lvMaxSize (G.PQ2.lvBind v0.pq2localView_ e)
                  + G.PQ1.lvMaxSize (G.PQ1.lvBind v0.pq1localView_ e) ∧
    v0.maxSize = G.dimension * G.PQ2.lvMaxSize v0.pq2localView_
                  + G.PQ1.lvMaxSize v0.pq1localView_ ∧
    v.size ≤ v.maxSize := by
  obtain ⟨-, e1, e2, -⟩ := TaylorHoodBasisLocalView.bind_eq_some _ _ _ hb
  refine ⟨?_, rfl, ?_⟩
  · unfold TaylorHoodBasisLocalView.maxSize
    rw [e1, e2]
  · unfold TaylorHoodBasisLocalView.size TaylorHoodBasisLocalView.maxSize
    exact Nat.add_le_add (Nat.mul_le_mul_left _ h2) h1

/-- Claim C9 at the two-triangle instance, element 1: `size() = 15 <= 15 = maxSize()`. -/
theorem TaylorHoodBasisLocalView.size_le_maxSize_witness :
    trianglesBasis.localView.maxSize = 15 ∧
    (trianglesViewAt 1).size = 15 ∧
    ((trianglesViewAt 1).maxSize
       = twoTriangles.dimension
           * twoTriangles.PQ2.lvMaxSize (twoTriangles.PQ2.lvBind
               trianglesBasis.localView.pq2localView_ 1)
         + twoTriangles.PQ1.lvMaxSize (twoTriangles.PQ1.lvBind
               trianglesBasis.localView.pq1localView_ 1) ∧
     trianglesBasis.localView.maxSize
       = twoTriangles.dimension
           * twoTriangles.PQ2.lvMaxSize trianglesBasis.localView.pq2localView_
         + twoTriangles.PQ1.lvMaxSize trianglesBasis.localView.pq1localView_ ∧
     (trianglesViewAt 1).size ≤ (trianglesViewAt 1).maxSize) :=
  ⟨by decide, by decide,
   TaylorHoodBasisLocalView.size_le_maxSize trianglesBasis.localView (trianglesViewAt 1) 1
     rfl (by decide) (by decide)⟩

/-! ## Binding a local view twice -/

/-- Binding the velocity leaves a second time to the same element changes nothing
when a leaf's `bind` result depends only on the element. -/
theorem TaylorHoodVelocityTree.bindChildren_bindChildren {G : GV}
    (t : TaylorHoodVelocityTree G) (e : G.Element)
    (hn : ∀ a a1 : G.PQ2.Node, G.PQ2.nodeBind a e = G.PQ2.nodeBind a1 e) :
    (t.bindChildren e).bindChildren e = t.bindChildren e := by
  unfold TaylorHoodVelocityTree.bindChildren
  simp only [List.map_map, TaylorHoodVelocityTree.mk.injEq]
  apply List.map_congr_left
  intro c _
  simp only [Function.comp_apply, PQkNodalBasisLeafNode.mk.injEq, true_and]
  exact hn _ _

/-- Claim C8. Binding a local view to an element `e`, unbinding it, and binding it
to `e` again yields the same state as the first bind: identical `size()`, identical
tree, and identical `size()` and `index(i)` for every `i` from a local index set
bound to it, given that the `bind` result of each child (the two sub-basis local
views and the leaf nodes) depends only on the element. -/
theorem TaylorHoodBasisLocalView.bind_unbind_bind {G : GV}
    (v0 v1 : TaylorHoodBasisLocalView G) (e : G.Element)
    (hlv1 : ∀ a a1 : G.PQ1.LocalView, G.PQ1.lvBind a e = G.PQ1.lvBind a1 e)
    (hlv2 : ∀ a a1 : G.PQ2.LocalView, G.PQ2.lvBind a e = G.PQ2.lvBind a1 e)
    (hn1 : ∀ a a1 : G.PQ1.Node, G.PQ1.nodeBind a e = G.PQ1.nodeBind a1 e)
    (hn2 : ∀ a a1 : G.PQ2.Node, G.PQ2.nodeBind a e = G.PQ2.nodeBind a1 e)
    (hb : v0.bind e = some v1) :
    ∃ v2, v1.unbind.bind e = some v2 ∧
      v2 = v1 ∧
      v2.size = v1.size ∧
      v2.tree = v1.tree ∧
      ∀ (s : TaylorHoodLocalIndexSet G) (i : Nat),
        (s.bind v2).size = (s.bind v1).size ∧ (s.bind v2).index i = (s.bind v1).index i := by
  obtain ⟨hg, h1, h2, he, ht0, ht1, c0, hc0, hf⟩ :=
    TaylorHoodBasisLocalView.bind_eq_some v0 v1 e hb
  have hvel : v1.unbind.tree_.child0.bindChildren e = v1.tree_.child0 := by
    show v1.tree_.child0.bindChildren e = v1.tree_.child0
    rw [ht0]
    exact TaylorHoodVelocityTree.bindChildren_bindChildren _ e hn2
  have hhead : (v1.unbind.tree_.child0.bindChildren e).children.head? = some c0 := by
    rw [hvel, ht0]
    exact hc0
  have hbind : v1.unbind.bind e = some v1 := by
    unfold TaylorHoodBasisLocalView.bind
    simp only [hhead]
    rw [hvel]
    congr 1
    rcases v1 with ⟨g, p1, p2, el, ⟨t0, ⟨f, n⟩⟩⟩
    simp only at h1 h2 he ht1 hf
    simp only [TaylorHoodBasisLocalView.unbind, TaylorHoodBasisLocalView.mk.injEq,
      TaylorHoodBasisTree.mk.injEq, PQkNodalBasisLeafNode.mk.injEq, true_and]
    refine ⟨?_, ?_, he.symm, hf.symm, ?_⟩
    · rw [h1]; exact hlv1 _ _
    · rw [h2]; exact hlv2 _ _
    · rw [ht1]; exact hn1 _ _
  exact ⟨v1, hbind, rfl, rfl, rfl, fun _ _ => ⟨rfl, rfl⟩⟩

/-- Claim C8 at the two-triangle instance, element 1. -/
theorem TaylorHoodBasisLocalView.bind_unbind_bind_witness :
    trianglesBasis.localView.bind 1 = some (trianglesViewAt 1) ∧
    (trianglesViewAt 1).tree.child1.localIndexFunctor = { shift := 12 } ∧
    ∃ v2, (trianglesViewAt 1).unbind.bind 1 = some v2 ∧
      v2 = trianglesViewAt 1 ∧
      v2.size = (trianglesViewAt 1).size ∧
      v2.tree = (trianglesViewAt 1).tree ∧
      ∀ (s : TaylorHoodLocalIndexSet twoTriangles) (i : Nat),
        (s.bind v2).size = (s.bind (trianglesViewAt 1)).size ∧
        (s.bind v2).index i = (s.bind (trianglesViewAt 1)).index i :=
  ⟨rfl, by decide,
   TaylorHoodBasisLocalView.bind_unbind_bind trianglesBasis.localView (trianglesViewAt 1) 1
     (fun _ _ => rfl) (fun _ _ => rfl) (fun _ _ => rfl) (fun _ _ => rfl) rfl⟩

end Dune.Functions

/-! ## Container descriptors built by `makeDescriptor` -/

namespace Dune.Functions.ContainerDescriptors

/-- The `Tuple` overload is enabled exactly when the `Array` overload is not. -/
theorem makeDescriptorTuple_isSome_iff {Child Ty : Type} [DecidableEq Ty]
    (typeOf : Child → Ty) (child0 : Child) (children : List Child) :
    (makeDescriptorTuple typeOf child0 children).isSome
      = !(makeDescriptorArray typeOf child0 children).isSome := by
  unfold makeDescriptorTuple makeDescriptorArray
  by_cases hall : (children.all (fun c => decide (typeOf child0 = typeOf c))) = true
  · have hany : ¬ ((children.any (fun c => !decide (typeOf child0 = typeOf c))) = true) := by
      simp only [List.all_eq_true, decide_eq_true_eq] at hall
      simp only [List.any_eq_true, Bool.not_eq_true', decide_eq_false_iff_not, not_exists,
        not_and, not_not]
      exact hall
    simp [hall, hany]
  · have hany : (children.any (fun c => !decide (typeOf child0 = typeOf c))) = true := by
      simp only [List.all_eq_true, decide_eq_true_eq, not_forall] at hall
      simp only [List.any_eq_true, Bool.not_eq_true', decide_eq_false_iff_not]
      obtain ⟨c, hc, hne⟩ := hall
      exact ⟨c, hc, hne⟩
    have hpos : 0 < children.length := by
      cases children with
      | nil => simp at hany
      | cons c cs => simp
    simp [hall, hany, hpos]

/-- Claim C10. For every non-empty list of children `c_0, ..., c_{k-1}` passed to
`makeDescriptor`, the call is well-formed and returns either a `Tuple` or an `Array`
descriptor; in both cases `size() = k` and `operator[](i)` returns `c_i` for every
`i < k`, so the children are kept unchanged and in their original order. -/
theorem makeDescriptor_size_get {Child Ty : Type} [DecidableEq Ty]
    (typeOf : Child → Ty) (child0 : Child) (children : List Child) :
    (∃ t, makeDescriptor typeOf child0 children = some (Sum.inl t) ∧
        t.size = children.length + 1 ∧
        ∀ i : Fin (children.length + 1), t.get i = some ((child0 :: children).get i)) ∨
    (∃ a, makeDescriptor typeOf child0 children = some (Sum.inr a) ∧
        a.size = children.length + 1 ∧
        ∀ i : Fin (children.length + 1), a.get i = some ((child0 :: children).get i)) := by
  have hx := makeDescriptorTuple_isSome_iff typeOf child0 children
  unfold makeDescriptor
  cases ht : makeDescriptorTuple typeOf child0 children with
  | some t =>
    cases ha : makeDescriptorArray typeOf child0 children with
    | some a => rw [ht, ha] at hx; simp at hx
    | none =>
      left
      refine ⟨t, rfl, ?_, ?_⟩
      · unfold makeDescriptorTuple at ht
        split at ht
        · cases ht; simp [Tuple.size]
        · cases ht
      · intro i
        unfold makeDescriptorTuple at ht
        split at ht
        · cases ht
          simp [Tuple.get]
        · cases ht
  | none =>
    cases ha : makeDescriptorArray typeOf child0 children with
    | none => rw [ht, ha] at hx; simp at hx
    | some a =>
      right
      refine ⟨a, rfl, ?_, ?_⟩
      · simp [Array.size, Nat.add_comm]
      · intro i
        unfold makeDescriptorArray at ha
        split at ha
        · cases ha
          simp [Array.get]
        · cases ha

end Dune.Functions.ContainerDescriptors

namespace Dune.Functions.ContainerDescriptors

open Example

/-- The `Array` overload is enabled exactly for children of one type. -/
theorem makeDescriptorArray_isSome_iff {Child Ty : Type} [DecidableEq Ty]
    (typeOf : Child → Ty) (child0 : Child) (children : List Child) :
    (makeDescriptorArray typeOf child0 children).isSome = true
      ↔ ∀ c ∈ children, typeOf c = typeOf child0 := by
  unfold makeDescriptorArray
  by_cases hall : (children.all (fun c => decide (typeOf child0 = typeOf c))) = true
  · simp only [hall, if_true, Option.isSome_some, true_iff]
    simp only [List.all_eq_true, decide_eq_true_eq] at hall
    exact fun c hc => (hall c hc).symm
  · simp only [hall, if_false, Option.isSome_none, Bool.false_eq_true, false_iff]
    simp only [List.all_eq_true, decide_eq_true_eq] at hall
    exact fun h => hall (fun c hc => (h c hc).symm)

/-- Claim C11. For every size `n` and child `c`, `makeUniformDescriptor(n, c)`, in
its static form (`UniformArray`) and in its dynamic form (`UniformVector`), has
`size() = n`, and `operator[](i)` returns the stored child `c` for every index `i`:
the index is not checked, so `c` is returned also for `i >= n` and for `n = 0`. -/
theorem makeUniformDescriptor_size_get {Child : Type} (n : Nat) (c : Child) (i : Nat) :
    (makeUniformDescriptorStatic n c).size = n ∧
    (makeUniformDescriptorStatic n c).get i = c ∧
    (makeUniformDescriptor n c).size = n ∧
    (makeUniformDescriptor n c).get i = c ∧
    (makeUniformDescriptorStatic 0 c).get i = c ∧
    (makeUniformDescriptor 0 c).get i = c ∧
    (makeUniformDescriptorStatic n c).get (n + i) = c ∧
    (makeUniformDescriptor n c).get (n + i) = c :=
  ⟨rfl, rfl, rfl, rfl, rfl, rfl, rfl, rfl⟩

/-- Claim C12. A `Value` descriptor has `size() = 0`, its `operator[](i)` returns a
`Value`, equal to itself, for every index `i`, and every chain of child accesses
starting at a `Value` ends at that `Value`, of size 0. -/
theorem Value.size_get_chain (v : Value) (chain : List Nat) :
    v.size = 0 ∧
    (∀ i, v.get i = v) ∧
    chain.foldl Value.get v = v ∧
    (chain.foldl Value.get v).size = 0 :=
  ⟨rfl, fun _ => rfl, rfl, rfl⟩

/-- Claim C13. For every child `c` and every `n >= 1`, `makeDescriptor(c, ..., c)`
with `n` copies of `c` is an `Array` that reports the same `size()` as
`makeUniformDescriptor(n, c)` (static and dynamic) and returns the same child at
every index `i < n`; and a child list stored as a `Tuple` and as an `Array` reports
the same `size()` and the same child at every index. -/
theorem makeDescriptor_replicate_eq_uniform {Child Ty : Type} [DecidableEq Ty]
    (typeOf : Child → Ty) (c : Child) (n : Nat) (hn : 1 ≤ n) :
    (∃ a, makeDescriptor typeOf c (List.replicate (n - 1) c) = some (Sum.inr a) ∧
      a.size = n ∧
      a.size = (makeUniformDescriptor n c).size ∧
      a.size = (makeUniformDescriptorStatic n c).size ∧
      ∀ i < n, a.get i = some ((makeUniformDescriptor n c).get i) ∧
               a.get i = some ((makeUniformDescriptorStatic n c).get i)) ∧
    (∀ (children : List Child) (i : Nat),
      (Tuple.mk children).size = (Array.mk children rfl : Array Child children.length).size ∧
      (Tuple.mk children).get i
        = (Array.mk children rfl : Array Child children.length).get i) := by
  refine ⟨?_, fun _ _ => ⟨rfl, rfl⟩⟩
  have hA : (makeDescriptorArray typeOf c (List.replicate (n - 1) c)).isSome = true := by
    rw [makeDescriptorArray_isSome_iff]
    intro d hd
    rw [List.eq_of_mem_replicate hd]
  have hT := makeDescriptorTuple_isSome_iff typeOf c (List.replicate (n - 1) c)
  rw [hA] at hT
  unfold makeDescriptor
  cases ha : makeDescriptorArray typeOf c (List.replicate (n - 1) c) with
  | none => rw [ha] at hA; simp at hA
  | some a =>
    cases ht : makeDescriptorTuple typeOf c (List.replicate (n - 1) c) with
    | some t => rw [ht] at hT; simp at hT
    | none =>
      have hsize : a.size = n := by
        simp only [Array.size, List.length_replicate]
        omega
      refine ⟨a, rfl, hsize, hsize, hsize, ?_⟩
      intro i hi
      unfold makeDescriptorArray at ha
      split at ha
      · cases ha
        have hget : (c :: List.replicate (n - 1) c)[i]? = some c := by
          cases i with
          | zero => simp
          | succ j =>
            rw [List.getElem?_cons_succ, List.getElem?_replicate]
            have : j < n - 1 := by omega
            simp [this]
        exact ⟨hget, hget⟩
      · cases ha

/-- Claim C13 with three copies of a `FlatVector` of size 2. -/
theorem makeDescriptor_replicate_eq_uniform_witness :
    (makeUniformDescriptor 3 (Leaf.flatVector (makeUniformDescriptor 2 {}))).size = 3 ∧
    (∃ a, makeDescriptor Leaf.typeOf (Leaf.flatVector (makeUniformDescriptor 2 {}))
            (List.replicate (3 - 1) (Leaf.flatVector (makeUniformDescriptor 2 {})))
          = some (Sum.inr a) ∧
      a.size = 3 ∧
      a.size = (makeUniformDescriptor 3 (Leaf.flatVector (makeUniformDescriptor 2 {}))).size ∧
      a.size
        = (makeUniformDescriptorStatic 3 (Leaf.flatVector (makeUniformDescriptor 2 {}))).size ∧
      ∀ i < 3,
        a.get i = some ((makeUniformDescriptor 3
                          (Leaf.flatVector (makeUniformDescriptor 2 {}))).get i) ∧
        a.get i = some ((makeUniformDescriptorStatic 3
                          (Leaf.flatVector (makeUniformDescriptor 2 {}))).get i)) :=
  ⟨rfl,
   (makeDescriptor_replicate_eq_uniform Leaf.typeOf
      (Leaf.flatVector (makeUniformDescriptor 2 {})) 3 (by decide)).1⟩

/-- Claim C19. For a call `makeDescriptor(child0, children...)`: the `Array`
overload is enabled exactly when every child has the type of the first one, which
includes a single child; the `Tuple` overload is enabled exactly when there are at
least two children and some child's type differs from the first one's; exactly one
of the two is enabled, and it decides the representation that is returned. -/
theorem makeDescriptor_overload {Child Ty : Type} [DecidableEq Ty]
    (typeOf : Child → Ty) (child0 : Child) (children : List Child) :
    ((makeDescriptorArray typeOf child0 children).isSome = true
      ↔ ∀ c ∈ children, typeOf c = typeOf child0) ∧
    ((makeDescriptorTuple typeOf child0 children).isSome = true
      ↔ 2 ≤ (child0 :: children).length ∧ ∃ c ∈ children, typeOf c ≠ typeOf child0) ∧
    ((makeDescriptorTuple typeOf child0 children).isSome
      = !(makeDescriptorArray typeOf child0 children).isSome) ∧
    ((makeDescriptorArray typeOf child0 []).isSome = true ∧
      (makeDescriptorTuple typeOf child0 []).isSome = false) ∧
    ((∀ c ∈ children, typeOf c = typeOf child0)
      → ∃ a, makeDescriptor typeOf child0 children = some (Sum.inr a)) ∧
    ((∃ c ∈ children, typeOf c ≠ typeOf child0)
      → ∃ t, makeDescriptor typeOf child0 children = some (Sum.inl t)) := by
  have hA := makeDescriptorArray_isSome_iff typeOf child0 children
  have hX := makeDescriptorTuple_isSome_iff typeOf child0 children
  have hT : (makeDescriptorTuple typeOf child0 children).isSome = true
      ↔ 2 ≤ (child0 :: children).length ∧ ∃ c ∈ children, typeOf c ≠ typeOf child0 := by
    rw [hX, Bool.not_eq_true', ← Bool.not_eq_true, hA]
    constructor
    · intro h
      simp only [not_forall] at h
      obtain ⟨c, hc, hne⟩ := h
      refine ⟨?_, c, hc, hne⟩
      cases children with
      | nil => simp at hc
      | cons d ds => simp
    · rintro ⟨-, c, hc, hne⟩ h
      exact hne (h c hc)
  refine ⟨hA, hT, hX, ⟨by simp [makeDescriptorArray], by simp [makeDescriptorTuple]⟩, ?_, ?_⟩
  · intro h
    have h1 := hA.mpr h
    have h2 : (makeDescriptorTuple typeOf child0 children).isSome = false := by
      rw [hX, h1]; rfl
    unfold makeDescriptor
    cases ha : makeDescriptorArray typeOf child0 children with
    | none => rw [ha] at h1; simp at h1
    | some a =>
      cases ht : makeDescriptorTuple typeOf child0 children with
      | some t => rw [ht] at h2; simp at h2
      | none => exact ⟨a, rfl⟩
  · intro h
    have hlen : 2 ≤ (child0 :: children).length := by
      obtain ⟨c, hc, -⟩ := h
      cases children with
      | nil => simp at hc
      | cons d ds => simp
    have h2 := hT.mpr ⟨hlen, h⟩
    have h1 : (makeDescriptorArray typeOf child0 children).isSome = false := by
      rw [hX] at h2
      simpa using h2
    unfold makeDescriptor
    cases ht : makeDescriptorTuple typeOf child0 children with
    | none => rw [ht] at h2; simp at h2
    | some t =>
      cases ha : makeDescriptorArray typeOf child0 children with
      | some a => rw [ha] at h1; simp at h1
      | none => exact ⟨t, rfl⟩

/-- Claim C19 on a `Value` followed by a `FlatVector`: the types differ, the `Tuple`
overload is the enabled one. -/
theorem makeDescriptor_overload_witness :
    (makeDescriptorTuple Leaf.typeOf (Leaf.value {})
        [Leaf.flatVector (makeUniformDescriptor 2 {})]).isSome = true ∧
    (makeDescriptorArray Leaf.typeOf (Leaf.value {})
        [Leaf.flatVector (makeUniformDescriptor 2 {})]).isSome = false ∧
    ∃ t, makeDescriptor Leaf.typeOf (Leaf.value {})
        [Leaf.flatVector (makeUniformDescriptor 2 {})] = some (Sum.inl t) :=
  ⟨by decide, by decide,
   (makeDescriptor_overload Leaf.typeOf (Leaf.value {})
      [Leaf.flatVector (makeUniformDescriptor 2 {})]).2.2.2.2.2
     ⟨_, List.mem_singleton.mpr rfl, by decide⟩⟩

end Dune.Functions.ContainerDescriptors

/-! ## Element, grid view and instances of the local index set -/

namespace Dune.Functions

open Example

/-- The member `element()` returns `element_` in every state, and `unbind()` does
not change `element_`. -/
theorem TaylorHoodBasisLocalView.element_eq {G : GV} (v : TaylorHoodBasisLocalView G) :
    v.element = v.element_ ∧ v.unbind.element = v.element_ :=
  ⟨rfl, rfl⟩

/-- Claim C14, evaluated on the two-triangle instance. `element()` has no failing
path, it returns the member `element_` as it is: on a freshly constructed view the
default-constructed entity (`none`), after `bind(1)` the element 1, and after
`bind(1); unbind()` still the element 1. -/
theorem TaylorHoodBasisLocalView.element_unchecked :
    trianglesBasis.localView.element = none ∧
    trianglesBasis.localView.unbind.element = none ∧
    trianglesBasis.localView.bind 1 = some (trianglesViewAt 1) ∧
    (trianglesViewAt 1).element = some 1 ∧
    (trianglesViewAt 1).unbind.element = some 1 :=
  ⟨rfl, rfl, rfl, rfl, rfl⟩

/-- The results of `size()` and `index(i)` are determined by the two sub-basis
local index sets. -/
theorem TaylorHoodLocalIndexSet.size_index_congr {G : GV} (s s1 : TaylorHoodLocalIndexSet G)
    (h1 : s.pq1LocalIndexSet_ = s1.pq1LocalIndexSet_)
    (h2 : s.pq2LocalIndexSet_ = s1.pq2LocalIndexSet_) :
    s.size = s1.size ∧ ∀ i, s.index i = s1.index i := by
  constructor
  · unfold TaylorHoodLocalIndexSet.size
    rw [h1, h2]
  · intro i
    unfold TaylorHoodLocalIndexSet.index
    rw [h1, h2]

/-- Claim C16. A `TaylorHoodBasis` constructed from a grid view `gv` constructs both
sub-bases from `gv`; given that `gridView()` of a sub-basis returns the grid view it
was constructed from, both sub-bases report the same grid view and `gridView()` of
the composite basis returns `gv`. -/
theorem TaylorHoodBasis.gridView_construct (G : GV) (gv : G.GridView)
    (h1 : ∀ g, G.PQ1.gridView (G.PQ1.construct g) = g)
    (h2 : ∀ g, G.PQ2.gridView (G.PQ2.construct g) = g) :
    (TaylorHoodBasis.construct G gv).pq1nodalbasis_ = G.PQ1.construct gv ∧
    (TaylorHoodBasis.construct G gv).pq2nodalbasis_ = G.PQ2.construct gv ∧
    G.PQ1.gridView (TaylorHoodBasis.construct G gv).pq1nodalbasis_
      = G.PQ2.gridView (TaylorHoodBasis.construct G gv).pq2nodalbasis_ ∧
    (TaylorHoodBasis.construct G gv).gridView = gv := by
  refine ⟨rfl, rfl, ?_, ?_⟩
  · show G.PQ1.gridView (G.PQ1.construct gv) = G.PQ2.gridView (G.PQ2.construct gv)
    rw [h1, h2]
  · show G.PQ1.gridView (G.PQ1.construct gv) = gv
    exact h1 gv

/-- Claim C16 on the labelled two-triangle instance with the grid view 5. -/
theorem TaylorHoodBasis.gridView_construct_witness :
    (TaylorHoodBasis.construct labelledTriangles 5).pq1nodalbasis_
      = labelledTriangles.PQ1.construct 5 ∧
    (TaylorHoodBasis.construct labelledTriangles 5).pq2nodalbasis_
      = labelledTriangles.PQ2.construct 5 ∧
    labelledTriangles.PQ1.gridView (TaylorHoodBasis.construct labelledTriangles 5).pq1nodalbasis_
      = labelledTriangles.PQ2.gridView
          (TaylorHoodBasis.construct labelledTriangles 5).pq2nodalbasis_ ∧
    (TaylorHoodBasis.construct labelledTriangles 5).gridView = 5 :=
  TaylorHoodBasis.gridView_construct labelledTriangles 5 (fun _ => rfl) (fun _ => rfl)

/-- Claim C20, refuted as stated: on the two-triangle instance, after `bind(1)` and
`unbind()` both sub-basis local views are unbound (`none`), but every leaf node of
the tree is still bound to element 1 and the whole tree is the one that `bind(1)`
left. -/
theorem TaylorHoodBasisLocalView.unbind_counterexample :
    trianglesBasis.localView.bind 1 = some (trianglesViewAt 1) ∧
    (trianglesViewAt 1).unbind.pq1localView_ = none ∧
    (trianglesViewAt 1).unbind.pq2localView_ = none ∧
    (trianglesViewAt 1).unbind.tree.child0.children.map (fun c => c.node)
      = [some 1, some 1] ∧
    (trianglesViewAt 1).unbind.tree.child1.node = some 1 ∧
    (trianglesViewAt 1).unbind.tree.child1.node ≠ twoTriangles.PQ1.nodeInit ∧
    (trianglesViewAt 1).unbind.tree = (trianglesViewAt 1).tree :=
  ⟨rfl, rfl, rfl, rfl, rfl, by decide, rfl⟩

/-- Claim C20, amended: `unbind()` unbinds both sub-basis local views and nothing
else: the tree with all its leaf nodes and the pressure offset, the member
`element_` and the global-basis back-reference are left unchanged. -/
theorem TaylorHoodBasisLocalView.unbind_eq {G : GV} (v : TaylorHoodBasisLocalView G) :
    v.unbind.pq1localView_ = G.PQ1.lvUnbind v.pq1localView_ ∧
    v.unbind.pq2localView_ = G.PQ2.lvUnbind v.pq2localView_ ∧
    v.unbind.tree = v.tree ∧
    v.unbind.element_ = v.element_ ∧
    v.unbind.globalBasis = v.globalBasis :=
  ⟨rfl, rfl, rfl, rfl, rfl⟩

end Dune.Functions

/-! ## The state after `bind` and the local indices of the tree -/

namespace Dune.Functions

open Example

/-- A sequence of calls that ends with one more call runs the sequence first. -/
theorem TaylorHoodBasisLocalView.run_append_singleton {G : GV}
    (calls : List (LocalViewCall G)) (c : LocalViewCall G) :
    ∀ (v0 v : TaylorHoodBasisLocalView G), v0.run (calls ++ [c]) = some v →
      ∃ v1, v0.run calls = some v1 ∧ v1.call c = some v := by
  induction calls with
  | nil =>
    intro v0 v h
    refine ⟨v0, rfl, ?_⟩
    simp only [List.nil_append, TaylorHoodBasisLocalView.run] at h
    cases hc : v0.call c with
    | none => rw [hc] at h; cases h
    | some w => rw [hc] at h; simp only [Option.some.injEq] at h; rw [h]
  | cons d ds ih =>
    intro v0 v h
    simp only [List.cons_append, TaylorHoodBasisLocalView.run] at h ⊢
    cases hd : v0.call d with
    | none => rw [hd] at h; cases h
    | some w =>
      rw [hd] at h
      exact ih w v h

/-- Claim C17. In every state reached by a sequence of `bind`/`unbind` calls on a
local view that ends with `bind(e)`: both sub-basis local views, all `dim` velocity
leaf nodes and the pressure leaf node are in the state that their own `bind(e)`
left, and the offset in the pressure node's local index functor is `dim` times the
size of velocity child 0 as bound to `e`; when the state of a leaf after `bind(e)`
depends only on `e`, this offset is the same for every earlier history. -/
theorem TaylorHoodBasisLocalView.run_bind_last {G : GV}
    (v0 v : TaylorHoodBasisLocalView G) (calls : List (LocalViewCall G)) (e : G.Element)
    (h : v0.run (calls ++ [LocalViewCall.bind e]) = some v) :
    (∃ p, v.pq1localView_ = G.PQ1.lvBind p e) ∧
    (∃ p, v.pq2localView_ = G.PQ2.lvBind p e) ∧
    v.element_ = some e ∧
    v.tree.child0.children.length = G.dimension ∧
    (∀ c ∈ v.tree.child0.children, ∃ n, c.node = G.PQ2.nodeBind n e) ∧
    (∃ n, v.tree.child1.node = G.PQ1.nodeBind n e) ∧
    (∃ c0 n, v.tree.child0.children.head? = some c0 ∧ c0.node = G.PQ2.nodeBind n e ∧
      v.tree.child1.localIndexFunctor.shift = G.dimension * G.PQ2.nodeSize c0.node) ∧
    ((∀ n n1, G.PQ2.nodeBind n e = G.PQ2.nodeBind n1 e) →
      v.tree.child1.localIndexFunctor.shift
        = G.dimension * G.PQ2.nodeSize (G.PQ2.nodeBind G.PQ2.nodeInit e)) := by
  obtain ⟨v1, -, hb⟩ := TaylorHoodBasisLocalView.run_append_singleton calls _ v0 v h
  obtain ⟨-, h1, h2, he, ht0, ht1, c0, hc0, hf⟩ :=
    TaylorHoodBasisLocalView.bind_eq_some v1 v e hb
  have hmem : ∀ c ∈ v.tree.child0.children, ∃ n, c.node = G.PQ2.nodeBind n e := by
    intro c hc
    have hc1 : c ∈ (v1.tree_.child0.bindChildren e).children := by
      rw [← ht0]; exact hc
    unfold TaylorHoodVelocityTree.bindChildren at hc1
    simp only [List.mem_map] at hc1
    obtain ⟨d, -, hd⟩ := hc1
    exact ⟨d.node, by rw [← hd]⟩
  have hhead : v.tree.child0.children.head? = some c0 := by
    show v.tree_.child0.children.head? = some c0
    rw [ht0]; exact hc0
  have hc0mem : c0 ∈ v.tree.child0.children := List.mem_of_mem_head? hhead
  obtain ⟨n0, hn0⟩ := hmem c0 hc0mem
  have hshift : v.tree.child1.localIndexFunctor.shift = G.dimension * G.PQ2.nodeSize c0.node := by
    show v.tree_.child1.localIndexFunctor.shift = _
    rw [hf, Nat.mul_comm]
  refine ⟨⟨_, h1⟩, ⟨_, h2⟩, he, v.tree_.child0.length_eq, hmem, ⟨_, ht1⟩,
    ⟨c0, n0, hhead, hn0, hshift⟩, fun hdep => ?_⟩
  rw [hshift, hn0, hdep n0 G.PQ2.nodeInit]

/-- Claim C17 on the two-triangle instance: `bind(0); unbind(); bind(1)` on a fresh
view gives the state of a single `bind(1)`, with pressure offset `2 * 6 = 12`. -/
theorem TaylorHoodBasisLocalView.run_bind_last_witness :
    trianglesBasis.localView.run
        ([LocalViewCall.bind 0, LocalViewCall.unbind] ++ [LocalViewCall.bind 1])
      = some (trianglesViewAt 1) ∧
    (trianglesViewAt 1).tree.child1.localIndexFunctor.shift = 12 ∧
    ((∃ p, (trianglesViewAt 1).pq1localView_ = twoTriangles.PQ1.lvBind p 1) ∧
    (∃ p, (trianglesViewAt 1).pq2localView_ = twoTriangles.PQ2.lvBind p 1) ∧
    (trianglesViewAt 1).element_ = some 1 ∧
    (trianglesViewAt 1).tree.child0.children.length = twoTriangles.dimension ∧
    (∀ c ∈ (trianglesViewAt 1).tree.child0.children,
        ∃ n, c.node = twoTriangles.PQ2.nodeBind n 1) ∧
    (∃ n, (trianglesViewAt 1).tree.child1.node = twoTriangles.PQ1.nodeBind n 1) ∧
    (∃ c0 n, (trianglesViewAt 1).tree.child0.children.head? = some c0 ∧
      c0.node = twoTriangles.PQ2.nodeBind n 1 ∧
      (trianglesViewAt 1).tree.child1.localIndexFunctor.shift
        = twoTriangles.dimension * twoTriangles.PQ2.nodeSize c0.node) ∧
    ((∀ n n1, twoTriangles.PQ2.nodeBind n 1 = twoTriangles.PQ2.nodeBind n1 1) →
      (trianglesViewAt 1).tree.child1.localIndexFunctor.shift
        = twoTriangles.dimension
            * twoTriangles.PQ2.nodeSize
                (twoTriangles.PQ2.nodeBind twoTriangles.PQ2.nodeInit 1))) :=
  ⟨rfl, rfl,
   TaylorHoodBasisLocalView.run_bind_last trianglesBasis.localView (trianglesViewAt 1)
     [LocalViewCall.bind 0, LocalViewCall.unbind] 1 rfl⟩

end Dune.Functions

namespace Dune.Functions

open Example

end Dune.Functions

namespace Dune.Functions

open Example

end Dune.Functions

namespace Dune.Functions

/-- With at least one velocity component every sequence of `bind`/`unbind` calls on
a local view is defined. -/
theorem TaylorHoodBasisLocalView.run_isSome {G : GV} (hdim : 0 < G.dimension)
    (calls : List (LocalViewCall G)) :
    ∀ v0 : TaylorHoodBasisLocalView G, ∃ v, v0.run calls = some v := by
  induction calls with
  | nil => exact fun v0 => ⟨v0, rfl⟩
  | cons c cs ih =>
    intro v0
    have hcall : ∃ v1, v0.call c = some v1 := by
      cases c with
      | bind e => exact TaylorHoodBasisLocalView.bind_isSome v0 e hdim
      | unbind => exact ⟨_, rfl⟩
    obtain ⟨v1, h1⟩ := hcall
    obtain ⟨v, hv⟩ := ih v1
    exact ⟨v, by simp only [TaylorHoodBasisLocalView.run, h1, hv]⟩

end Dune.Functions

/-! ## Rebinding a local index set, fresh local index sets, entity sets -/

namespace Dune.Functions

open Example

/-- Claim C22, evaluated on the two-triangle instance. The local index set returned
by `localIndexSet()` holds a copy of the index set it was created from, but its
member `localView_` is not initialised by the constructor: it is indeterminate, not
the null pointer that `unbind()` stores, and `localView()` has nothing to
dereference. -/
theorem TaylorHoodIndexSet.localIndexSet_localView_indeterminate :
    trianglesBasis.indexSet.localIndexSet.indexSet_ = trianglesBasis.indexSet ∧
    trianglesBasis.indexSet.localIndexSet.localView_ = Pointer.indeterminate ∧
    trianglesBasis.indexSet.localIndexSet.unbind.localView_ = Pointer.null ∧
    trianglesBasis.indexSet.localIndexSet.localView_
      ≠ trianglesBasis.indexSet.localIndexSet.unbind.localView_ ∧
    trianglesBasis.indexSet.localIndexSet.localView = none :=
  ⟨rfl, rfl, rfl, fun h => Pointer.noConfusion h, rfl⟩

/-- Claim C23. A `GridViewEntitySet` constructed from a grid view `gv` reads `gv`
only: `gridView()` returns `gv`, `contains(e)` is `gv.contains(e)`, `size()` is
`gv.size(codim)`, `begin()` and `end()` are the iterators of `gv`, and `size()` is
the number of entities visited from `begin()` to `end()` when `gv.size(codim)` is
the number of entities that the iteration over `gv` visits.  Every member is a
function of the set alone and returns no new state, so no operation changes `gv`. -/
theorem GridViewEntitySet.read_view {GridView Entity : Type}
    (I : GridViewInterface GridView Entity) (codim : Nat) (gv : GridView)
    (hcount : I.size gv codim = (I.visited (I.begin gv codim) (I.end_ gv codim)).length) :
    (GridViewEntitySet.construct I codim gv).gridView = gv ∧
    (∀ e, (GridViewEntitySet.construct I codim gv).contains e = I.contains gv e) ∧
    (GridViewEntitySet.construct I codim gv).size = I.size gv codim ∧
    (GridViewEntitySet.construct I codim gv).begin = I.begin gv codim ∧
    (GridViewEntitySet.construct I codim gv).end_ = I.end_ gv codim ∧
    (GridViewEntitySet.construct I codim gv).size
      = (I.visited (GridViewEntitySet.construct I codim gv).begin
          (GridViewEntitySet.construct I codim gv).end_).length :=
  ⟨rfl, fun _ => rfl, rfl, rfl, rfl, hcount⟩

/-- Claim C23 on the grid view with the elements 4, 7, 9, codimension 0. -/
theorem GridViewEntitySet.read_view_witness :
    (GridViewEntitySet.construct listGridView 0 [4, 7, 9]).size = 3 ∧
    listGridView.visited (GridViewEntitySet.construct listGridView 0 [4, 7, 9]).begin
        (GridViewEntitySet.construct listGridView 0 [4, 7, 9]).end_ = [4, 7, 9] ∧
    (GridViewEntitySet.construct listGridView 0 [4, 7, 9]).contains 7 = true ∧
    (GridViewEntitySet.construct listGridView 0 [4, 7, 9]).contains 5 = false ∧
    (GridViewEntitySet.construct listGridView 0 [4, 7, 9]).gridView = [4, 7, 9] ∧
    (GridViewEntitySet.construct listGridView 0 [4, 7, 9]).size
      = (listGridView.visited (GridViewEntitySet.construct listGridView 0 [4, 7, 9]).begin
          (GridViewEntitySet.construct listGridView 0 [4, 7, 9]).end_).length :=
  have h := GridViewEntitySet.read_view listGridView 0 [4, 7, 9] (by decide)
  ⟨by decide, by decide, by decide, by decide, h.1, h.2.2.2.2.2⟩

/-- Claim C27. `size(prefix)` returns a value if and only if the prefix is empty or
has exactly one entry equal to 0 or 1; for a prefix with two entries, and for a
one-entry prefix with entry at least 2, it reaches `assert(false)` and returns no
value. -/
theorem TaylorHoodIndexSet.sizeAt_isSome_iff {G : GV} (s : TaylorHoodIndexSet G)
    (pfx : List Nat) :
    ((s.sizeAt pfx).isSome = true ↔ pfx = [] ∨ pfx = [0] ∨ pfx = [1]) ∧
    (∀ a b, s.sizeAt [a, b] = none) ∧
    (∀ b, 2 ≤ b → s.sizeAt [b] = none) := by
  refine ⟨?_, fun _ _ => rfl, ?_⟩
  · match pfx with
    | [] => simp [TaylorHoodIndexSet.sizeAt]
    | [b] =>
      by_cases h0 : b = 0
      · simp [TaylorHoodIndexSet.sizeAt, h0]
      · by_cases h1 : b = 1
        · simp [TaylorHoodIndexSet.sizeAt, h1]
        · simp [TaylorHoodIndexSet.sizeAt, h0, h1]
    | _ :: _ :: _ => simp [TaylorHoodIndexSet.sizeAt]
  · intro b hb
    have h0 : b ≠ 0 := by omega
    have h1 : b ≠ 1 := by omega
    simp [TaylorHoodIndexSet.sizeAt, h0, h1]

/-- Claim C27 on the two-triangle instance: `size([1]) = 4`, no value for `[2]` and
for `[0, 0]`. -/
theorem TaylorHoodIndexSet.sizeAt_isSome_iff_witness :
    trianglesBasis.indexSet.sizeAt [1] = some 4 ∧
    trianglesBasis.indexSet.sizeAt [2] = none ∧
    trianglesBasis.indexSet.sizeAt [0, 0] = none ∧
    ((trianglesBasis.indexSet.sizeAt [2]).isSome = true ↔ [2] = [] ∨ [2] = [0] ∨ [2] = [1]) :=
  ⟨by decide, by decide, by decide,
   (TaylorHoodIndexSet.sizeAt_isSome_iff trianglesBasis.indexSet [2]).1⟩

end Dune.Functions

/-! ## Injectivity, branch selectors and the division of `index` -/

namespace Dune.Functions

open Example

/-- Claim C24. For a local index set bound to a local view, with `dim >= 1` and both
sub-basis local index maps injective on their local ranges: for all `i != j` with
`i, j < size()` and both below `2*dim*s2`, `index(i)` and `index(j)` are defined and
different. -/
theorem TaylorHoodLocalIndexSet.index_injective {G : GV} (s0 : TaylorHoodLocalIndexSet G)
    (v : TaylorHoodBasisLocalView G) (i j : Nat) (hij : i ≠ j)
    (hi : i < (s0.bind v).size) (hj : j < (s0.bind v).size)
    (hi2 : i < 2 * (G.dimension * G.PQ2.lisSize (s0.bind v).pq2LocalIndexSet_))
    (hj2 : j < 2 * (G.dimension * G.PQ2.lisSize (s0.bind v).pq2LocalIndexSet_))
    (hdim : 1 ≤ G.dimension)
    (hinj2 : ∀ a < G.PQ2.lisSize (s0.bind v).pq2LocalIndexSet_,
      ∀ b < G.PQ2.lisSize (s0.bind v).pq2LocalIndexSet_,
      (G.PQ2.lisIndex (s0.bind v).pq2LocalIndexSet_ a).e0
        = (G.PQ2.lisIndex (s0.bind v).pq2LocalIndexSet_ b).e0 → a = b)
    (hinj1 : ∀ a < G.PQ1.lisSize (s0.bind v).pq1LocalIndexSet_,
      ∀ b < G.PQ1.lisSize (s0.bind v).pq1LocalIndexSet_,
      (G.PQ1.lisIndex (s0.bind v).pq1LocalIndexSet_ a).e0
        = (G.PQ1.lisIndex (s0.bind v).pq1LocalIndexSet_ b).e0 → a = b) :
    (∃ mi mj, (s0.bind v).index i = some mi ∧ (s0.bind v).index j = some mj ∧ mi ≠ mj) ∧
    (s0.bind v).index i ≠ (s0.bind v).index j := by
  have hsz : (s0.bind v).size = G.dimension * G.PQ2.lisSize (s0.bind v).pq2LocalIndexSet_
      + G.PQ1.lisSize (s0.bind v).pq1LocalIndexSet_ := rfl
  rw [hsz] at hi hj
  have key : ∃ mi mj, (s0.bind v).index i = some mi ∧ (s0.bind v).index j = some mj ∧
      mi ≠ mj := by
    by_cases hiv : i < G.dimension * G.PQ2.lisSize (s0.bind v).pq2LocalIndexSet_
    · by_cases hjv : j < G.dimension * G.PQ2.lisSize (s0.bind v).pq2LocalIndexSet_
      · refine ⟨_, _, TaylorHoodLocalIndexSet.index_eq_of_lt _ i hiv,
          TaylorHoodLocalIndexSet.index_eq_of_lt _ j hjv, ?_⟩
        intro h
        simp only [MultiIndex.mk.injEq, Option.some.injEq, true_and] at h
        have hri : i % G.dimension < G.dimension := Nat.mod_lt _ hdim
        have hrj : j % G.dimension < G.dimension := Nat.mod_lt _ hdim
        have hq : (G.PQ2.lisIndex (s0.bind v).pq2LocalIndexSet_ (i / G.dimension)).e0
            = (G.PQ2.lisIndex (s0.bind v).pq2LocalIndexSet_ (j / G.dimension)).e0 := by
          have h1 := congrArg (fun x => x / G.dimension) h
          simp only at h1
          rw [Nat.mul_comm _ G.dimension, Nat.mul_comm _ G.dimension,
            Nat.mul_add_div hdim, Nat.mul_add_div hdim, Nat.div_eq_of_lt hri,
            Nat.div_eq_of_lt hrj] at h1
          simpa using h1
        have hr : i % G.dimension = j % G.dimension := by
          rw [hq] at h
          omega
        have hd : i / G.dimension = j / G.dimension :=
          hinj2 _ (Nat.div_lt_of_lt_mul hiv) _ (Nat.div_lt_of_lt_mul hjv) hq
        apply hij
        rw [← Nat.div_add_mod i G.dimension, ← Nat.div_add_mod j G.dimension, hd, hr]
      · refine ⟨_, _, TaylorHoodLocalIndexSet.index_eq_of_lt _ i hiv,
          TaylorHoodLocalIndexSet.index_eq_of_le_of_lt _ j (Nat.le_of_not_lt hjv) hj2, ?_⟩
        intro h
        simp at h
    · by_cases hjv : j < G.dimension * G.PQ2.lisSize (s0.bind v).pq2LocalIndexSet_
      · refine ⟨_, _,
          TaylorHoodLocalIndexSet.index_eq_of_le_of_lt _ i (Nat.le_of_not_lt hiv) hi2,
          TaylorHoodLocalIndexSet.index_eq_of_lt _ j hjv, ?_⟩
        intro h
        simp at h
      · refine ⟨_, _,
          TaylorHoodLocalIndexSet.index_eq_of_le_of_lt _ i (Nat.le_of_not_lt hiv) hi2,
          TaylorHoodLocalIndexSet.index_eq_of_le_of_lt _ j (Nat.le_of_not_lt hjv) hj2, ?_⟩
        intro h
        simp only [MultiIndex.mk.injEq, Option.some.injEq, true_and] at h
        have := hinj1 _ (by omega) _ (by omega) h
        omega
  refine ⟨key, ?_⟩
  obtain ⟨mi, mj, h1, h2, hne⟩ := key
  rw [h1, h2]
  exact fun h => hne (Option.some.inj h)

/-- Claim C24 on the two-triangle instance, element 1, local indices 7 and 12. -/
theorem TaylorHoodLocalIndexSet.index_injective_witness :
    (trianglesLocalIndexSet.bind (trianglesViewAt 1)).index 7
      = some { e0 := some 0, e1 := some 13 } ∧
    (trianglesLocalIndexSet.bind (trianglesViewAt 1)).index 12
      = some { e0 := some 1, e1 := some 1 } ∧
    ((∃ mi mj, (trianglesLocalIndexSet.bind (trianglesViewAt 1)).index 7 = some mi ∧
        (trianglesLocalIndexSet.bind (trianglesViewAt 1)).index 12 = some mj ∧ mi ≠ mj) ∧
      (trianglesLocalIndexSet.bind (trianglesViewAt 1)).index 7
        ≠ (trianglesLocalIndexSet.bind (trianglesViewAt 1)).index 12) :=
  ⟨by decide, by decide,
   TaylorHoodLocalIndexSet.index_injective trianglesLocalIndexSet (trianglesViewAt 1) 7 12
     (by decide) (by decide) (by decide) (by decide) (by decide) (by decide)
     (by decide) (by decide)⟩

/-- Claim C25. For a local index set bound to a local view with `dim*s2 > 0`: every
local index `i < size()` has a defined `index(i)` with selector 0 or 1 if and only if
the linear local size `s1` is at most `dim*s2`; and when `s1 > dim*s2`, the local
index `2*dim*s2` is below `size()`, its selector is at least 2 and its entry `[1]` is
never assigned. -/
theorem TaylorHoodLocalIndexSet.selector_le_one_iff {G : GV} (s0 : TaylorHoodLocalIndexSet G)
    (v : TaylorHoodBasisLocalView G)
    (hpos : 0 < G.dimension * G.PQ2.lisSize (s0.bind v).pq2LocalIndexSet_) :
    ((∀ i < (s0.bind v).size, ∃ mi, (s0.bind v).index i = some mi ∧
          (mi.e0 = some 0 ∨ mi.e0 = some 1))
      ↔ G.PQ1.lisSize (s0.bind v).pq1LocalIndexSet_
          ≤ G.dimension * G.PQ2.lisSize (s0.bind v).pq2LocalIndexSet_) ∧
    (G.dimension * G.PQ2.lisSize (s0.bind v).pq2LocalIndexSet_
        < G.PQ1.lisSize (s0.bind v).pq1LocalIndexSet_ →
      2 * (G.dimension * G.PQ2.lisSize (s0.bind v).pq2LocalIndexSet_) < (s0.bind v).size ∧
      ∃ b, (s0.bind v).index (2 * (G.dimension * G.PQ2.lisSize (s0.bind v).pq2LocalIndexSet_))
          = some { e0 := some b, e1 := none } ∧ 2 ≤ b) := by
  have hsz : (s0.bind v).size = G.dimension * G.PQ2.lisSize (s0.bind v).pq2LocalIndexSet_
      + G.PQ1.lisSize (s0.bind v).pq1LocalIndexSet_ := rfl
  have hbig : G.dimension * G.PQ2.lisSize (s0.bind v).pq2LocalIndexSet_
        < G.PQ1.lisSize (s0.bind v).pq1LocalIndexSet_ →
      2 * (G.dimension * G.PQ2.lisSize (s0.bind v).pq2LocalIndexSet_) < (s0.bind v).size ∧
      ∃ b, (s0.bind v).index (2 * (G.dimension * G.PQ2.lisSize (s0.bind v).pq2LocalIndexSet_))
          = some { e0 := some b, e1 := none } ∧ 2 ≤ b := by
    intro hlt
    obtain ⟨hidx, hge⟩ := TaylorHoodLocalIndexSet.index_eq_of_two_mul_le (s0.bind v)
      (2 * (G.dimension * G.PQ2.lisSize (s0.bind v).pq2LocalIndexSet_)) hpos (Nat.le_refl _)
    exact ⟨by rw [hsz]; omega, _, hidx, hge⟩
  refine ⟨⟨fun h => ?_, fun h i hi => ?_⟩, hbig⟩
  · apply Nat.le_of_not_lt
    intro hlt
    obtain ⟨hlt2, b, hidx, hb⟩ := hbig hlt
    obtain ⟨mi, hmi, hsel⟩ := h _ hlt2
    rw [hidx] at hmi
    cases hmi
    rcases hsel with h0 | h1
    · simp only [Option.some.injEq] at h0; omega
    · simp only [Option.some.injEq] at h1; omega
  · rw [hsz] at hi
    by_cases hiv : i < G.dimension * G.PQ2.lisSize (s0.bind v).pq2LocalIndexSet_
    · exact ⟨_, TaylorHoodLocalIndexSet.index_eq_of_lt _ i hiv, Or.inl rfl⟩
    · exact ⟨_, TaylorHoodLocalIndexSet.index_eq_of_le_of_lt _ i (Nat.le_of_not_lt hiv)
        (by omega), Or.inr rfl⟩

/-- Claim C25 on the instance `wideLinear` (`dim*s2 = 1 < 2 = s1`): the local index
`2 < size() = 3` has selector 2 and no entry `[1]`. -/
theorem TaylorHoodLocalIndexSet.selector_le_one_iff_witness :
    (wideLocalIndexSet.bind (wideViewAt 0)).size = 3 ∧
    (wideLocalIndexSet.bind (wideViewAt 0)).index 2 = some { e0 := some 2, e1 := none } ∧
    (2 * (wideLinear.dimension
          * wideLinear.PQ2.lisSize (wideLocalIndexSet.bind (wideViewAt 0)).pq2LocalIndexSet_)
        < (wideLocalIndexSet.bind (wideViewAt 0)).size ∧
      ∃ b, (wideLocalIndexSet.bind (wideViewAt 0)).index
            (2 * (wideLinear.dimension * wideLinear.PQ2.lisSize
                    (wideLocalIndexSet.bind (wideViewAt 0)).pq2LocalIndexSet_))
          = some { e0 := some b, e1 := none } ∧ 2 ≤ b) :=
  ⟨by decide, by decide,
   (TaylorHoodLocalIndexSet.selector_le_one_iff wideLocalIndexSet (wideViewAt 0)
      (by decide)).2 (by decide)⟩

/-- Claim C26. `index(i)` divides by `v_size = dim*s2`: it is defined exactly when
`dim*s2 > 0`; for a local index set bound to a view on which the quadratic sub-basis
has local size 0, `index(i)` is undefined for every `i`, also for `i` below the
linear local size `s1`. -/
theorem TaylorHoodLocalIndexSet.index_isSome_iff {G : GV} (s0 : TaylorHoodLocalIndexSet G)
    (v : TaylorHoodBasisLocalView G) (i : Nat) :
    (((s0.bind v).index i).isSome = true
      ↔ 0 < G.dimension * G.PQ2.lisSize (s0.bind v).pq2LocalIndexSet_) ∧
    (G.PQ2.lisSize (s0.bind v).pq2LocalIndexSet_ = 0 →
      (∀ k, (s0.bind v).index k = none) ∧
      (∀ k < G.PQ1.lisSize (s0.bind v).pq1LocalIndexSet_, (s0.bind v).index k = none)) := by
  constructor
  · by_cases h0 : G.dimension * G.PQ2.lisSize (s0.bind v).pq2LocalIndexSet_ = 0
    · rw [TaylorHoodLocalIndexSet.index_eq_none _ i h0, h0]
      simp
    · have hpos : 0 < G.dimension * G.PQ2.lisSize (s0.bind v).pq2LocalIndexSet_ :=
        Nat.pos_of_ne_zero h0
      simp [TaylorHoodLocalIndexSet.index, h0, hpos]
  · intro hs2
    have h0 : G.dimension * G.PQ2.lisSize (s0.bind v).pq2LocalIndexSet_ = 0 := by
      rw [hs2, Nat.mul_zero]
    exact ⟨fun k => TaylorHoodLocalIndexSet.index_eq_none _ k h0,
      fun k _ => TaylorHoodLocalIndexSet.index_eq_none _ k h0⟩

/-- Claim C26 on the instance `emptyQuadratic` (`s2 = 0`, `s1 = 1`): `index(0)` is
undefined although `0 < s1`. -/
theorem TaylorHoodLocalIndexSet.index_isSome_iff_witness :
    emptyBasis.localView.bind 0 = some (emptyViewAt 0) ∧
    emptyQuadratic.PQ2.lisSize (emptyLocalIndexSet.bind (emptyViewAt 0)).pq2LocalIndexSet_ = 0 ∧
    emptyQuadratic.PQ1.lisSize (emptyLocalIndexSet.bind (emptyViewAt 0)).pq1LocalIndexSet_ = 1 ∧
    (emptyLocalIndexSet.bind (emptyViewAt 0)).index 0 = none ∧
    ((∀ k, (emptyLocalIndexSet.bind (emptyViewAt 0)).index k = none) ∧
      (∀ k < emptyQuadratic.PQ1.lisSize (emptyLocalIndexSet.bind (emptyViewAt 0)).pq1LocalIndexSet_,
        (emptyLocalIndexSet.bind (emptyViewAt 0)).index k = none)) :=
  ⟨rfl, by decide, by decide, by decide,
   (TaylorHoodLocalIndexSet.index_isSome_iff emptyLocalIndexSet (emptyViewAt 0) 0).2
     (by decide)⟩

end Dune.Functions

/-! ## The composite over the Lagrange sub-bases -/

namespace Dune.Functions

open Example

end Dune.Functions

namespace Dune.Functions

open Example

end Dune.Functions

namespace Dune.Functions

/-- A call of `bind` or `unbind` leaves the functors of the velocity leaves as they
are. -/
theorem TaylorHoodBasisLocalView.call_functors {G : GV} (v v1 : TaylorHoodBasisLocalView G)
    (c : LocalViewCall G) (h : v.call c = some v1) :
    v1.tree.child0.children.map (fun c => c.localIndexFunctor)
      = v.tree.child0.children.map (fun c => c.localIndexFunctor) := by
  cases c with
  | bind e =>
    obtain ⟨-, -, -, -, ht0, -⟩ := TaylorHoodBasisLocalView.bind_eq_some v v1 e h
    show v1.tree_.child0.children.map _ = v.tree_.child0.children.map _
    rw [ht0]
    unfold TaylorHoodVelocityTree.bindChildren
    rw [List.map_map]
    rfl
  | unbind =>
    simp only [TaylorHoodBasisLocalView.call, Option.some.injEq] at h
    rw [← h]
    rfl

/-- In every state reached from a freshly constructed local view, velocity leaf `c`
carries the functor with origin `c` and stride `dim` that the constructor of the
velocity tree gave it. -/
theorem TaylorHoodBasisLocalView.run_functors {G : GV} (b : TaylorHoodBasis G)
    (calls : List (LocalViewCall G)) (v : TaylorHoodBasisLocalView G)
    (h : b.localView.run calls = some v) :
    v.tree.child0.children.map (fun c => c.localIndexFunctor)
      = (List.range G.dimension).map (fun c => { shift := c, stride := G.dimension }) := by
  have hgen : ∀ (cs : List (LocalViewCall G)) (v0 v1 : TaylorHoodBasisLocalView G),
      v0.run cs = some v1 →
      v1.tree.child0.children.map (fun c => c.localIndexFunctor)
        = v0.tree.child0.children.map (fun c => c.localIndexFunctor) := by
    intro cs
    induction cs with
    | nil =>
      intro v0 v1 h0
      simp only [TaylorHoodBasisLocalView.run, Option.some.injEq] at h0
      rw [h0]
    | cons c cs ih =>
      intro v0 v1 h0
      simp only [TaylorHoodBasisLocalView.run] at h0
      cases hc : v0.call c with
      | none => rw [hc] at h0; cases h0
      | some w =>
        rw [hc] at h0
        rw [ih w v1 h0, TaylorHoodBasisLocalView.call_functors v0 w c hc]
  rw [hgen calls _ v h]
  show (TaylorHoodVelocityTree.construct G).children.map _ = _
  unfold TaylorHoodVelocityTree.construct
  rw [List.map_map]
  rfl

end Dune.Functions
